import Mathlib

/-!
Verification development for the qr-parser repository: a shallow embedding of
the EMVCo TLV codec (src/utils/parse-qr.ts), the schema registry
(src/constants/emvco.ts), and the tree-mutation helpers (src/App.tsx),
together with proofs settling the frozen claims about the codec.

JavaScript-specific semantics (String.prototype.substring clamping and
argument swapping, parseInt with sign/junk tolerance, Number coercion,
padStart, toString(16), TextEncoder UTF-8) are modelled explicitly below,
since several claims hinge on them.
-/

set_option maxRecDepth 40000

namespace JS

/-- Clamp of a JavaScript substring index argument into [0, len], as
`String.prototype.substring` does after integer coercion. -/
def clampIdx (len : Nat) (i : Int) : Nat := (max 0 (min i (len : Int))).toNat

/-- JavaScript `s.substring(a, b)`: both arguments clamped into [0, length],
and swapped when start exceeds end. -/
def jsSubstring (s : String) (a b : Int) : String :=
  let x := clampIdx s.length a
  let y := clampIdx s.length b
  String.mk ((s.data.take (max x y)).drop (min x y))

/-- Whitespace skipped by JavaScript `parseInt` (the WhiteSpace and
LineTerminator code points). -/
def isWhitespaceChar (c : Char) : Bool :=
  c.toNat == 9 || c.toNat == 10 || c.toNat == 11 || c.toNat == 12 || c.toNat == 13 ||
  c.toNat == 32 || c.toNat == 160 || c.toNat == 0x2028 || c.toNat == 0x2029 ||
  c.toNat == 0xFEFF

/-- Decimal digit test, '0'..'9'. -/
def isDigitChar (c : Char) : Bool := 48 ≤ c.toNat && c.toNat ≤ 57

/-- Value of a list of decimal digit characters, most significant first. -/
def digitsVal (cs : List Char) : Nat := cs.foldl (fun a c => 10 * a + (c.toNat - 48)) 0

/-- JavaScript `parseInt(s, 10)`: skip leading whitespace, read an optional
sign, then the longest (possibly empty) prefix of decimal digits, ignoring any
trailing junk. `none` models the NaN result when no digit is found. -/
def jsParseInt (s : String) : Option Int :=
  let cs := s.data.dropWhile isWhitespaceChar
  match cs with
  | '-' :: rest =>
    let ds := rest.takeWhile isDigitChar
    if ds.isEmpty then none else some (-(digitsVal ds : Int))
  | '+' :: rest =>
    let ds := rest.takeWhile isDigitChar
    if ds.isEmpty then none else some ((digitsVal ds : Int))
  | rest =>
    let ds := rest.takeWhile isDigitChar
    if ds.isEmpty then none else some ((digitsVal ds : Int))

/-- JavaScript `Number(s)` restricted to the integral case: `none` models NaN.
The empty (or all-whitespace) string coerces to 0; otherwise an optional sign
followed exclusively by decimal digits is accepted. Strings JavaScript would
read as non-integral numbers (such as ".5") are mapped to `none`; in this
repository `Number` is only applied to two-character ids and to the halves of
range keys of the schema tables, and every range in those tables starts at 1
or above, so a value in (0,1) matches no range, exactly as NaN does. -/
def jsNumberInt (s : String) : Option Int :=
  let cs := s.data.dropWhile isWhitespaceChar
  let cs := (cs.reverse.dropWhile isWhitespaceChar).reverse
  match cs with
  | [] => some 0
  | '-' :: rest =>
    if rest ≠ [] && rest.all isDigitChar then some (-(digitsVal rest : Int)) else none
  | '+' :: rest =>
    if rest ≠ [] && rest.all isDigitChar then some ((digitsVal rest : Int)) else none
  | rest =>
    if rest.all isDigitChar then some ((digitsVal rest : Int)) else none

/-- Accumulator loop of `jsSplitChar`. -/
def splitCharAux (sep : Char) : List Char → List Char → List String
  | [], acc => [String.mk acc.reverse]
  | c :: cs, acc =>
    if c == sep then String.mk acc.reverse :: splitCharAux sep cs []
    else splitCharAux sep cs (c :: acc)

/-- JavaScript `s.split(sep)` for a one-character separator string: the
pieces between occurrences of `sep`, with empty pieces kept (so the empty
string splits to one empty piece, as in JavaScript). -/
def jsSplitChar (s : String) (sep : Char) : List String := splitCharAux sep s.data []

/-- JavaScript `s.padStart(target, pad)` for a one-character pad string. -/
def jsPadStart (s : String) (target : Nat) (pad : Char) : String :=
  if target ≤ s.length then s
  else String.mk (List.replicate (target - s.length) pad ++ s.data)

/-- JavaScript `n.toString()` for a non-negative integer. -/
def jsToStringDec (n : Nat) : String := toString n

/-- JavaScript `n.toString(16)` for a non-negative integer: lowercase
hexadecimal digits. -/
def jsToStringHex (n : Nat) : String := String.mk (Nat.toDigits 16 n)

/-- ASCII uppercasing of one character, as `toUpperCase` acts on the
characters this code applies it to (hexadecimal digits). -/
def upperChar (c : Char) : Char :=
  if 97 ≤ c.toNat && c.toNat ≤ 122 then Char.ofNat (c.toNat - 32) else c

/-- JavaScript `s.toUpperCase()` on ASCII strings. -/
def jsToUpper (s : String) : String := String.mk (s.data.map upperChar)

/-- UTF-8 encoding of one code point, as `TextEncoder` produces. -/
def utf8EncodeChar (c : Char) : List Nat :=
  let n := c.toNat
  if n < 0x80 then [n]
  else if n < 0x800 then [0xC0 ||| (n >>> 6), 0x80 ||| (n &&& 0x3F)]
  else if n < 0x10000 then
    [0xE0 ||| (n >>> 12), 0x80 ||| ((n >>> 6) &&& 0x3F), 0x80 ||| (n &&& 0x3F)]
  else
    [0xF0 ||| (n >>> 18), 0x80 ||| ((n >>> 12) &&& 0x3F),
     0x80 ||| ((n >>> 6) &&& 0x3F), 0x80 ||| (n &&& 0x3F)]

/-- JavaScript `new TextEncoder().encode(s)`: the UTF-8 bytes of `s`. -/
def utf8Bytes (s : String) : List Nat := (s.data.map utf8EncodeChar).flatten

end JS

/-- One schema entry of `DATA_OBJECT_DEFINITIONS` (src/constants/emvco.ts):
name, format and description strings, an optional ordered table of sub-field
schemas keyed by exact id or "start-end" range, and an optional
value-to-label enumeration. JavaScript objects keep insertion order, so the
tables are ordered association lists. -/
inductive SchemaNode : Type where
  | mk (name format description : String)
       (subFields : Option (List (String × SchemaNode)))
       (payload_description : Option (List (String × String))) : SchemaNode

def SchemaNode.name : SchemaNode → String | .mk n _ _ _ _ => n

def SchemaNode.format : SchemaNode → String | .mk _ f _ _ _ => f

def SchemaNode.description : SchemaNode → String | .mk _ _ d _ _ => d

def SchemaNode.subFields : SchemaNode → Option (List (String × SchemaNode))
  | .mk _ _ _ s _ => s

def SchemaNode.payload_description : SchemaNode → Option (List (String × String))
  | .mk _ _ _ _ p => p

/-- Modelled from the spec: the merchant-category-code enumeration is imported
from a file (`./mcc`) that is not present under src/. The spec treats the
static metadata tables as out-of-scope pure data that the codec only consults
by id, and no claim depends on the contents of this table, so it is modelled
as the empty enumeration (present, hence truthy, as in the source). -/
def merchantCategoryCodes : List (String × String) := []

/-- The GUID sub-field description shared by the merchant-account templates. -/
def guidDescription : String :=
  "An identifier that sets the context\nof the data that follows.\nThe value is one of the following:\n• an Application Identifier\n(AID);\n• a [UUID] without the hyphen\n(-) separators;\n• a reverse domain name."

/-- The payment-network-specific-data description shared by several nodes. -/
def pnsdDescription : String :=
  "Association of data objects to\nIDs and type of data object is\nspecific to the Globally Unique\nIdentifier."

/-- `DATA_OBJECT_DEFINITIONS` of src/constants/emvco.ts, in declaration
order. -/
def DATA_OBJECT_DEFINITIONS : List (String × SchemaNode) := [
  ("00", .mk "Payload Format Indicator" "N" "Indicates the data representation format" none none),
  ("01", .mk "Point of Initiation Method" "N" "Indicates whether QR is for static (11) or dynamic (12) payment" none
    (some [("11", "Static QR Code"), ("12", "Dynamic QR Code")])),
  ("02-25", .mk "Merchant Account Information" "ans" "Merchant account information, can include multiple fields" none none),
  ("26-37", .mk "Merchant Account Information Template" "S" "Template for merchant account information"
    (some [
      ("00", .mk "Globally Unique Identifier (GUID)" "ans" guidDescription none none),
      ("01-99", .mk "Payment Network Specific Data" "s" pnsdDescription none none)]) none),
  ("38", .mk "VietQR Code through NAPAS" "S" "VietQR code data structure"
    (some [
      ("00", .mk "Globally Unique Identifier (GUID)" "ans" guidDescription none
        (some [("A000000727", "GUID for NAPAS247")])),
      ("01", .mk "Payment Network Specific Data" "s" pnsdDescription
        (some [
          ("00", .mk "Acquirer ID" "s" "Acquirer identifier" none
            (some [("970436", "Vietcombank"), ("970418", "BIDV"), ("970448", "OCB"),
                   ("970415", "VietinBank"), ("970407", "Techcombank"), ("970405", "Agribank"),
                   ("970419", "Navibank"), ("970403", "Sacombank"), ("970416", "ACB"),
                   ("970454", "Ban Viet")])),
          ("01", .mk "Merchant ID" "s" "Merchant identifier" none none)]) none),
      ("02", .mk "Service Code" "s" "Service code for the transaction: \nQRIBFTTC: NAPAS247 through QR to Card\nQRIBFTTA: NAPAS247 through QR to Account" none none)]) none),
  ("39-51", .mk "Merchant Account Information Template" "S" "Template for merchant account information"
    (some [
      ("00", .mk "Globally Unique Identifier (GUID)" "ans" guidDescription none none),
      ("01-99", .mk "Payment Network Specific Data" "s" pnsdDescription none none)]) none),
  ("52", .mk "Merchant Category Code" "N" "4-digit merchant category code" none
    (some merchantCategoryCodes)),
  ("53", .mk "Transaction Currency" "N" "ISO 4217 currency code" none none),
  ("54", .mk "Transaction Amount" "ans" "Transaction amount" none none),
  ("55", .mk "Tip or Convenience Indicator" "N" "Tip or convenience fee indicator" none none),
  ("56", .mk "Value of Convenience Fee Fixed" "ans" "Fixed convenience fee amount" none none),
  ("57", .mk "Value of Convenience Fee Percentage" "ans" "Percentage convenience fee" none none),
  ("58", .mk "Country Code" "ans" "ISO 3166-1 alpha 2 country code" none none),
  ("59", .mk "Merchant Name" "ans" "Merchant name" none none),
  ("60", .mk "Merchant City" "ans" "Merchant city" none none),
  ("61", .mk "Postal Code" "ans" "Merchant postal code" none none),
  ("62", .mk "Additional Data Field Template" "S" "Additional data fields"
    (some [
      ("01", .mk "Bill Number" "ans" "Bill number or invoice number" none none),
      ("02", .mk "Mobile Number" "ans" "Mobile number" none none),
      ("03", .mk "Store Label" "ans" "Store label or store ID" none none),
      ("04", .mk "Loyalty Number" "ans" "Loyalty card number" none none),
      ("05", .mk "Reference Label" "ans" "Reference label" none none),
      ("06", .mk "Customer Label" "ans" "Customer label" none none),
      ("07", .mk "Terminal Label" "ans" "Terminal label" none none),
      ("08", .mk "Purpose of Transaction" "ans" "Purpose of the transaction" none none),
      ("09", .mk "Additional Consumer Data Request" "ans" "Additional consumer data request A(address), M(Mobile), E(Email)" none none),
      ("10", .mk "Merchant Tax ID" "ans" "Merchant tax identification number" none none),
      ("11", .mk "Merchant Channel" "ans" "Channel through which the transaction is processed" none none),
      ("12-49", .mk "RFU for EMVCo" "s" "Reserved for future use by EMVCo" none none),
      ("50-99", .mk "Payment System Specific Template" "s" "Payment system specific data" none none)]) none),
  ("63", .mk "CRC" "ans" "Checksum for data integrity" none none),
  ("64", .mk "Merchant Information—Language Template" "S" "Merchant information in alternate language"
    (some [
      ("00", .mk "Language Preference" "ans" "Preferred language for merchant information" none none),
      ("01", .mk "Merchangt Name in Alternate Language" "ans" "Merchant name in the preferred language" none none),
      ("02", .mk "Merchant City in Alternate Language" "ans" "Merchant city in the preferred language" none none),
      ("03-99", .mk "Reserved for Future Use" "s" "Reserved for future use by EMVCo" none none)]) none)]

/-- Concatenation of a list of strings (JavaScript `array.join('')`), written
as a structural recursion. -/
def joinStrings : List String → String
  | [] => ""
  | s :: rest => s ++ joinStrings rest

/-- Exact-key lookup in an ordered schema table (JavaScript property access
`definitions[id]`). -/
def lookupKey (defs : List (String × SchemaNode)) (id : String) : Option SchemaNode :=
  (defs.find? (fun kv => kv.1 == id)).map (fun kv => kv.2)

/-- Exact-value lookup in an enumeration table (`payload_description[value]`). -/
def lookupVal (pd : List (String × String)) (v : String) : Option String :=
  (pd.find? (fun kv => kv.1 == v)).map (fun kv => kv.2)

namespace Emvco

/-- One step of the key loop of `getDefinition` (src/constants/emvco.ts):
range keys "start-end" are split and coerced with `Number` and matched by
inclusive containment; other keys must match exactly. Iteration follows
declaration order. -/
def findInDefs : List (String × SchemaNode) → String → Option SchemaNode
  | [], _ => none
  | (key, definition) :: rest, id =>
    if key.data.contains '-' then
      match (JS.jsSplitChar key '-').map JS.jsNumberInt with
      | start :: e :: _ =>
        match start, e, JS.jsNumberInt id with
        | some startNum, some endNum, some numId =>
          if startNum ≤ numId && numId ≤ endNum then some definition
          else findInDefs rest id
        | _, _, _ => findInDefs rest id
      | _ => findInDefs rest id
    else if key == id then some definition
    else findInDefs rest id

/-- `getDefinition` of src/constants/emvco.ts: resolve `id` against the
sub-field table of `parentDefinition` when one is given (an absent `subFields`
iterates over nothing, as a JavaScript for-in over undefined does), and
against the root table otherwise. -/
def getDefinition (id : String) (parentDefinition : Option SchemaNode) :
    Option SchemaNode :=
  let definitions := match parentDefinition with
    | some p => p.subFields.getD []
    | none => DATA_OBJECT_DEFINITIONS
  findInDefs definitions id

end Emvco

/-- `ParsedDataObject` (src/types/parsed-object.ts): one decoded TLV record.
The optional `children?: ParsedDataObject[]` field is modelled as a plain
list with `[]` for an absent field: every function of the sources guards its
use of `children` with a non-emptiness test (`children && children.length >
0`), or produces identical results on an absent and on an empty array (the
recursion of `updateQrObjectRecursive` maps the empty array to itself), so
the two are observationally equal throughout the embedded code. -/
inductive ParsedDataObject : Type where
  | mk (id length value : String)
       (name format description : Option String)
       (children : List ParsedDataObject) : ParsedDataObject

def ParsedDataObject.id : ParsedDataObject → String | .mk i _ _ _ _ _ _ => i

def ParsedDataObject.length : ParsedDataObject → String | .mk _ l _ _ _ _ _ => l

def ParsedDataObject.value : ParsedDataObject → String | .mk _ _ v _ _ _ _ => v

def ParsedDataObject.name : ParsedDataObject → Option String | .mk _ _ _ n _ _ _ => n

def ParsedDataObject.format : ParsedDataObject → Option String | .mk _ _ _ _ f _ _ => f

def ParsedDataObject.description : ParsedDataObject → Option String | .mk _ _ _ _ _ d _ => d

def ParsedDataObject.children : ParsedDataObject → List ParsedDataObject
  | .mk _ _ _ _ _ _ c => c

/-- Replace the `children` field of a record (the assignment
`dataObject.children = ...` / `child.children = ...` of the parser). -/
def ParsedDataObject.setChildren : ParsedDataObject → List ParsedDataObject → ParsedDataObject
  | .mk i l v n f d _, cs => .mk i l v n f d cs

/-- Errors thrown by the parser and by `parseQRCode`; `outOfFuel` is the
marker of the step-indexed embedding for a computation that has not finished
within the given fuel (the source has no such outcome: its loops simply keep
running). -/
inductive ParseError : Type where
  | outOfFuel : ParseError
  | dataEmpty : ParseError
  | dataTooShortForId (id : String) (got : Int) : ParseError
  | invalidLength (lengthStr : String) : ParseError
  | dataTooShortForPayload (id : String) (expected got : Int) : ParseError
deriving DecidableEq, Repr

namespace QRParser

/-- Truthiness of an optional string argument (`if (parentId)`). -/
def truthyOpt : Option String → Bool
  | none => false
  | some s => !(s == "")

/-- The range-scanning loop shared by the branches of `QRParser.getDefinition`
(src/utils/parse-qr.ts): keys containing '-' are split and their halves read
with `parseInt`, and the first range containing `parseInt(id)` wins; a NaN
anywhere makes the comparison false. -/
def rangeScan : List (String × SchemaNode) → String → Option SchemaNode
  | [], _ => none
  | (key, definition) :: rest, id =>
    if key.data.contains '-' then
      match JS.jsSplitChar key '-' with
      | start :: e :: _ =>
        match JS.jsParseInt id, JS.jsParseInt start, JS.jsParseInt e with
        | some idNum, some startNum, some endNum =>
          if startNum ≤ idNum && idNum ≤ endNum then some definition
          else rangeScan rest id
        | _, _, _ => rangeScan rest id
      | _ => rangeScan rest id
    else rangeScan rest id

/-- The no-ancestor tail of `QRParser.getDefinition`: exact match against the
root table first, then the range scan. -/
def getDefinitionBase (id : String) : Option SchemaNode :=
  match lookupKey DATA_OBJECT_DEFINITIONS id with
  | some d => some d
  | none => rangeScan DATA_OBJECT_DEFINITIONS id

/-- The `parentId` branch of `QRParser.getDefinition`: resolve the parent at
the root, try its sub-fields by exact key then by range, and fall through to
the root-level lookup when nothing matched (the source `if` block does not
return in that case). -/
def getDefinitionWithParent (id parentId : String) : Option SchemaNode :=
  match getDefinitionBase parentId with
  | some parentDefinition =>
    match lookupKey (parentDefinition.subFields.getD []) id with
    | some d => some d
    | none =>
      match rangeScan (parentDefinition.subFields.getD []) id with
      | some d => some d
      | none => getDefinitionBase id
  | none => getDefinitionBase id

/-- The `grandParentId` branch of `QRParser.getDefinition`: the grandparent is
resolved at the root; the parent through the two-argument call (which falls
through to the root table); an exact sub-field hit on the parent wins, else
the grandparent's range keys are scanned; this branch returns undefined
rather than falling through. -/
def getDefinitionFull (id : String) (parentId : Option String) (gpId : String) :
    Option SchemaNode :=
  match getDefinitionBase gpId with
  | none => none
  | some grandParentDefinition =>
    match parentId with
    | none => none
    | some pid =>
      if pid == "" then none
      else
        match getDefinitionWithParent pid gpId with
        | some parentDefinition =>
          match lookupKey (parentDefinition.subFields.getD []) id with
          | some d => some d
          | none => rangeScan (grandParentDefinition.subFields.getD []) id
        | none => rangeScan (grandParentDefinition.subFields.getD []) id

/-- `QRParser.getDefinition(id, parentId?, grandParentId?)`: dispatch on the
truthiness of the optional ancestor ids as the source's `if` chain does. -/
def getDefinition (id : String) (parentId grandParentId : Option String) :
    Option SchemaNode :=
  if truthyOpt grandParentId then getDefinitionFull id parentId (grandParentId.getD "")
  else if truthyOpt parentId then getDefinitionWithParent id (parentId.getD "")
  else getDefinitionBase id

/-- `QRParser.isStructuredField`: ids whose values hold sub-fields, by raw
numeric comparison on `parseInt(id)`. -/
def isStructuredField (id : String) : Bool :=
  match JS.jsParseInt id with
  | none => false
  | some idNum =>
    (26 ≤ idNum && idNum ≤ 51) || idNum == 38 || idNum == 62 || idNum == 64

/-- The description enrichment of `parseDataObject`: copy the definition's
description and, when the definition carries a `payload_description`, append
a line with the value's label (the raw value when no label matches; an empty
label is falsy and also falls back to the raw value). -/
def mkDescription (definition : Option SchemaNode) (value : String) : Option String :=
  match definition with
  | none => none
  | some d =>
    match d.payload_description with
    | none => some d.description
    | some pd =>
      let payloadDescription :=
        match lookupVal pd value with
        | some label => if label == "" then value else label
        | none => value
      some (d.description ++ "\n" ++ value ++ ":" ++ payloadDescription)

mutual

/-- `QRParser.parseDataObject` (src/utils/parse-qr.ts): read two characters
of id, check that two more remain, read two characters of length, read it
with `parseInt` (NaN is the invalid-length error), check that `length` more
characters remain, read the value, resolve the schema definition for the
ancestor chain, and recurse into the value when the definition has sub-fields
and the id is structured. The cursor is an `Int`: a negative parsed length
moves it backwards exactly as in the source. The extra fuel argument makes
the embedding total; `outOfFuel` marks an unfinished run. -/
def parseDataObject (data : String) (index : Int) (parentId grandParentId : Option String) :
    Nat → Except ParseError (ParsedDataObject × Int)
  | 0 => .error .outOfFuel
  | fuel + 1 =>
    let id := JS.jsSubstring data index (index + 2)
    let index := index + 2
    if (data.length : Int) < index + 2 then
      .error (.dataTooShortForId id ((data.length : Int) - index + 1))
    else
      let lengthStr := JS.jsSubstring data index (index + 2)
      let index := index + 2
      match JS.jsParseInt lengthStr with
      | none => .error (.invalidLength lengthStr)
      | some len =>
        if (data.length : Int) < index + len then
          .error (.dataTooShortForPayload id len ((data.length : Int) - index))
        else
          let value := JS.jsSubstring data index (index + len)
          let index := index + len
          let definition := getDefinition id parentId grandParentId
          let description := mkDescription definition value
          let dataObject : ParsedDataObject :=
            .mk id lengthStr value (definition.map SchemaNode.name)
              (definition.map SchemaNode.format) description []
          if (definition.map SchemaNode.subFields).getD none |>.isSome then
            if isStructuredField id then
              match parseChildrenLoop value 0
                  (((definition.map SchemaNode.subFields).getD none).getD [])
                  (some id) none fuel with
              | .ok children => .ok (dataObject.setChildren children, index)
              | .error e => .error e
            else .ok (dataObject, index)
          else .ok (dataObject, index)

/-- The `while` loop of `QRParser.parseChildren`: parse records from
`childData` until the cursor reaches the end, with the special VietQR case
for sub-field 01 of field 38, whose value is re-parsed against the sub-field
definition's own sub-fields and overwrites the child's children. -/
def parseChildrenLoop (childData : String) (index : Int)
    (subFieldDefs : List (String × SchemaNode)) (parentId grandParentId : Option String) :
    Nat → Except ParseError (List ParsedDataObject)
  | 0 => .error .outOfFuel
  | fuel + 1 =>
    if index < (childData.length : Int) then
      match parseDataObject childData index parentId grandParentId fuel with
      | .error e => .error e
      | .ok (child, newIndex) =>
        let child2res : Except ParseError ParsedDataObject :=
          if parentId == some "38" && child.id == "01" then
            match lookupKey subFieldDefs child.id with
            | some subFieldDef =>
              match subFieldDef.subFields with
              | some sfs =>
                match parseChildrenLoop child.value 0 sfs (some child.id) parentId fuel with
                | .ok cs => .ok (child.setChildren cs)
                | .error e => .error e
              | none => .ok child
            | none => .ok child
          else .ok child
        match child2res with
        | .error e => .error e
        | .ok child2 =>
          match parseChildrenLoop childData newIndex subFieldDefs parentId grandParentId fuel with
          | .ok rest => .ok (child2 :: rest)
          | .error e => .error e
    else .ok []

end

/-- The `while` loop of `QRParser.parse`: parse data objects with no ancestor
context until the cursor reaches the end of the data. -/
def parseLoop (data : String) (index : Int) : Nat → Except ParseError (List ParsedDataObject)
  | 0 => .error .outOfFuel
  | fuel + 1 =>
    if index < (data.length : Int) then
      match parseDataObject data index none none fuel with
      | .error e => .error e
      | .ok (dataObject, newIndex) =>
        match parseLoop data newIndex fuel with
        | .ok rest => .ok (dataObject :: rest)
        | .error e => .error e
    else .ok []

/-- `QRParser.parse`: run the top-level loop from cursor 0. -/
def parse (data : String) (fuel : Nat) : Except ParseError (List ParsedDataObject) :=
  parseLoop data 0 fuel

end QRParser

/-- `parseQRCode` (src/utils/parse-qr.ts): an empty (falsy) input throws
"Data cannot be empty"; otherwise a fresh parser is run on the data. -/
def parseQRCode (data : String) (fuel : Nat) : Except ParseError (List ParsedDataObject) :=
  if data == "" then .error .dataEmpty else QRParser.parse data fuel

/-- The checksum id constant `CRC_CHECKSUM` of src/utils/parse-qr.ts. -/
def CRC_CHECKSUM : String := "63"

/-- The 256-entry lookup table embedded in `calculateCrc16IBM3740`. -/
def crcTable : List Nat := [
  0x0000, 0x1021, 0x2042, 0x3063, 0x4084, 0x50a5, 0x60c6, 0x70e7, 0x8108, 0x9129, 0xa14a, 0xb16b,
  0xc18c, 0xd1ad, 0xe1ce, 0xf1ef, 0x1231, 0x0210, 0x3273, 0x2252, 0x52b5, 0x4294, 0x72f7, 0x62d6,
  0x9339, 0x8318, 0xb37b, 0xa35a, 0xd3bd, 0xc39c, 0xf3ff, 0xe3de, 0x2462, 0x3443, 0x0420, 0x1401,
  0x64e6, 0x74c7, 0x44a4, 0x5485, 0xa56a, 0xb54b, 0x8528, 0x9509, 0xe5ee, 0xf5cf, 0xc5ac, 0xd58d,
  0x3653, 0x2672, 0x1611, 0x0630, 0x76d7, 0x66f6, 0x5695, 0x46b4, 0xb75b, 0xa77a, 0x9719, 0x8738,
  0xf7df, 0xe7fe, 0xd79d, 0xc7bc, 0x48c4, 0x58e5, 0x6886, 0x78a7, 0x0840, 0x1861, 0x2802, 0x3823,
  0xc9cc, 0xd9ed, 0xe98e, 0xf9af, 0x8948, 0x9969, 0xa90a, 0xb92b, 0x5af5, 0x4ad4, 0x7ab7, 0x6a96,
  0x1a71, 0x0a50, 0x3a33, 0x2a12, 0xdbfd, 0xcbdc, 0xfbbf, 0xeb9e, 0x9b79, 0x8b58, 0xbb3b, 0xab1a,
  0x6ca6, 0x7c87, 0x4ce4, 0x5cc5, 0x2c22, 0x3c03, 0x0c60, 0x1c41, 0xedae, 0xfd8f, 0xcdec, 0xddcd,
  0xad2a, 0xbd0b, 0x8d68, 0x9d49, 0x7e97, 0x6eb6, 0x5ed5, 0x4ef4, 0x3e13, 0x2e32, 0x1e51, 0x0e70,
  0xff9f, 0xefbe, 0xdfdd, 0xcffc, 0xbf1b, 0xaf3a, 0x9f59, 0x8f78, 0x9188, 0x81a9, 0xb1ca, 0xa1eb,
  0xd10c, 0xc12d, 0xf14e, 0xe16f, 0x1080, 0x00a1, 0x30c2, 0x20e3, 0x5004, 0x4025, 0x7046, 0x6067,
  0x83b9, 0x9398, 0xa3fb, 0xb3da, 0xc33d, 0xd31c, 0xe37f, 0xf35e, 0x02b1, 0x1290, 0x22f3, 0x32d2,
  0x4235, 0x5214, 0x6277, 0x7256, 0xb5ea, 0xa5cb, 0x95a8, 0x8589, 0xf56e, 0xe54f, 0xd52c, 0xc50d,
  0x34e2, 0x24c3, 0x14a0, 0x0481, 0x7466, 0x6447, 0x5424, 0x4405, 0xa7db, 0xb7fa, 0x8799, 0x97b8,
  0xe75f, 0xf77e, 0xc71d, 0xd73c, 0x26d3, 0x36f2, 0x0691, 0x16b0, 0x6657, 0x7676, 0x4615, 0x5634,
  0xd94c, 0xc96d, 0xf90e, 0xe92f, 0x99c8, 0x89e9, 0xb98a, 0xa9ab, 0x5844, 0x4865, 0x7806, 0x6827,
  0x18c0, 0x08e1, 0x3882, 0x28a3, 0xcb7d, 0xdb5c, 0xeb3f, 0xfb1e, 0x8bf9, 0x9bd8, 0xabbb, 0xbb9a,
  0x4a75, 0x5a54, 0x6a37, 0x7a16, 0x0af1, 0x1ad0, 0x2ab3, 0x3a92, 0xfd2e, 0xed0f, 0xdd6c, 0xcd4d,
  0xbdaa, 0xad8b, 0x9de8, 0x8dc9, 0x7c26, 0x6c07, 0x5c64, 0x4c45, 0x3ca2, 0x2c83, 0x1ce0, 0x0cc1,
  0xef1f, 0xff3e, 0xcf5d, 0xdf7c, 0xaf9b, 0xbfba, 0x8fd9, 0x9ff8, 0x6e17, 0x7e36, 0x4e55, 0x5e74,
  0x2e93, 0x3eb2, 0x0ed1, 0x1ef0]

/-- One iteration of the CRC loop of `calculateCrc16IBM3740`:
`tblIdx = ((crc >> 8) ^ byte) & 0xff; crc = ((crc << 8) & 0xffff) ^
crcTable[tblIdx]`. The running value stays within 16 bits, so JavaScript's
32-bit signed bitwise arithmetic coincides with arithmetic on `Nat`. -/
def crcStep (crc b : Nat) : Nat :=
  ((crc <<< 8) &&& 0xffff) ^^^ crcTable.getD (((crc >>> 8) ^^^ b) &&& 0xff) 0

/-- `calculateCrc16IBM3740` on the `Uint8Array` branch: fold the table step
over the bytes from the initial value 0xFFFF, and apply the final
`^ 0x0000`. -/
def calculateCrc16IBM3740Bytes (bytes : List Nat) : Nat :=
  (bytes.foldl crcStep 0xffff) ^^^ 0x0000

/-- `calculateCrc16IBM3740` on the string branch: the input is first encoded
to UTF-8 by `TextEncoder`. -/
def calculateCrc16IBM3740 (data : String) : Nat :=
  calculateCrc16IBM3740Bytes (JS.utf8Bytes data)

/-- Errors thrown by `validateCRC`. -/
inductive CrcError : Type where
  | dataEmptyForValidation : CrcError
  | checksumNotFound : CrcError
  | checksumMismatch (expected got : String) : CrcError
deriving DecidableEq, Repr

/-- `validateCRC` (src/utils/parse-qr.ts): reject an empty tree, find the
first top-level record with id "63", rebuild the checksummed string from the
top-level records only (filtering out every id-"63" record and emitting
`id + padStart2(length) + value` for each other record), append the checksum
record's own id and stored length, and compare the computed checksum
(lowercase hex, padded to 4, then uppercased) with the stored value. -/
def validateCRC (data : List ParsedDataObject) : Except CrcError Unit :=
  if data.isEmpty then .error .dataEmptyForValidation
  else
    match data.find? (fun item => item.id == CRC_CHECKSUM) with
    | none => .error .checksumNotFound
    | some crcChecksum =>
      let dataWithoutCRC :=
        joinStrings ((data.filter (fun item => !(item.id == CRC_CHECKSUM))).map
          (fun item => item.id ++ JS.jsPadStart item.length 2 '0' ++ item.value))
      let checkSumValue :=
        JS.jsToUpper (JS.jsPadStart
          (JS.jsToStringHex
            (calculateCrc16IBM3740 (dataWithoutCRC ++ crcChecksum.id ++ crcChecksum.length)))
          4 '0')
      if !(checkSumValue == crcChecksum.value) then
        .error (.checksumMismatch checkSumValue crcChecksum.value)
      else .ok ()

mutual

/-- `getRawDataStringForCRC` (src/utils/parse-qr.ts): serialize a record
tree for checksum computation, emitting nothing for id-"63" records,
`id + length +` the recursive serialization of the children for records with
children, and `id + length + value` for simple records. -/
def getRawDataStringForCRC : List ParsedDataObject → String
  | [] => ""
  | item :: rest => getRawDataStringItem item ++ getRawDataStringForCRC rest

/-- One record's contribution to `getRawDataStringForCRC`. -/
def getRawDataStringItem : ParsedDataObject → String
  | .mk i l v _ _ _ cs =>
    if i == CRC_CHECKSUM then ""
    else if !cs.isEmpty then i ++ l ++ getRawDataStringForCRC cs
    else i ++ l ++ v

end

/-- `updateCRCInParsedObject` (src/utils/parse-qr.ts): locate the first
top-level id-"63" record (returning the input unchanged when there is none),
recompute the checksum of the raw serialization with "6304" appended
(uppercased hex, then padded to 4), and rewrite that record's value and
length on a copy of the tree. -/
def updateCRCInParsedObject (currentQrObject : List ParsedDataObject) :
    List ParsedDataObject :=
  match currentQrObject.findIdx? (fun item => item.id == CRC_CHECKSUM) with
  | none => currentQrObject
  | some crcIndex =>
    let dataForCrcCalculation := getRawDataStringForCRC currentQrObject
    let crcDataForCalculation := dataForCrcCalculation ++ CRC_CHECKSUM ++ "04"
    let newCrcValue :=
      JS.jsPadStart (JS.jsToUpper (JS.jsToStringHex
        (calculateCrc16IBM3740 crcDataForCalculation))) 4 '0'
    match currentQrObject.get? crcIndex with
    | some crcObject =>
      currentQrObject.set crcIndex
        (.mk crcObject.id
          (JS.jsPadStart (JS.jsToStringDec newCrcValue.length) 2 '0')
          newCrcValue crcObject.name crcObject.format crcObject.description
          crcObject.children)
    | none => currentQrObject

namespace App

/-- The zero-padded two-digit decimal rendering used throughout App.tsx:
`n.toString().padStart(2, '0')`. -/
def zeroPad2 (n : Nat) : String := JS.jsPadStart (JS.jsToStringDec n) 2 '0'

/-- The child flattening `children.map(c => c.id + c.length + c.value)
.join('')` used by the mutation helpers of App.tsx. -/
def childConcat (cs : List ParsedDataObject) : String :=
  joinStrings (cs.map (fun c => c.id ++ c.length ++ c.value))

/-- `createNewDataObject` (src/App.tsx): a fresh record with length "00" and
empty value; `children` is initialized to the empty array exactly when the
definition is a template (in this embedding an absent `children` is also the
empty list). -/
def createNewDataObject (id : String) (definition : SchemaNode) : ParsedDataObject :=
  .mk id "00" "" (some definition.name) (some definition.format)
    (some definition.description) []

/-- The action argument of `updateQrObjectRecursive`. -/
inductive QrAction : Type where
  | add : QrAction
  | delete : QrAction
deriving DecidableEq

/-- The "may come first" relation of the comparator
`(a, b) => Number.parseInt(a.id) - Number.parseInt(b.id)`: ECMAScript treats
a NaN comparator result as +0, i.e. as equal. -/
def idLe (a b : ParsedDataObject) : Bool :=
  match JS.jsParseInt a.id, JS.jsParseInt b.id with
  | some x, some y => x ≤ y
  | _, _ => true

/-- Stable insertion of a record into an already sorted level. -/
def orderedInsert (a : ParsedDataObject) : List ParsedDataObject → List ParsedDataObject
  | [] => [a]
  | b :: bs => if idLe a b then a :: b :: bs else b :: orderedInsert a bs

/-- The sort `.sort((a, b) => Number.parseInt(a.id) - Number.parseInt(b.id))`
applied after inserting a new field. `Array.prototype.sort` is required to be
stable, so it is modelled as a stable insertion sort over `idLe`; on levels
whose ids all parse numerically (the only case the comparator specifies
deterministically) this is the unique stable sort by ascending numeric id. -/
def sortByNumericId (objs : List ParsedDataObject) : List ParsedDataObject :=
  objs.foldr orderedInsert []

mutual

/-- `updateQrObjectRecursive` (src/App.tsx): the add/delete mutation. On an
empty path, an add appends a fresh field at the root and re-sorts by numeric
id; otherwise the level is mapped through `updateQrLevel` and the original
array is returned when nothing changed. -/
def updateQrObjectRecursive (objects : List ParsedDataObject) (targetPath : List String)
    (action : QrAction) (newFieldId : Option String)
    (newFieldDefinition : Option SchemaNode) : List ParsedDataObject :=
  match targetPath with
  | [] =>
    match action, newFieldId, newFieldDefinition with
    | .add, some nid, some ndef =>
      sortByNumericId (objects ++ [createNewDataObject nid ndef])
    | _, _, _ => objects
  | currentId :: restPath =>
    let res := updateQrLevel objects currentId restPath action newFieldId newFieldDefinition
    if res.2 then res.1 else objects

/-- The `objects.map(...).filter(Boolean)` of `updateQrObjectRecursive`
together with its `changed` flag: each element maps to `none` (deleted) or a
record, and the flag records whether anything changed at or below this
level (the source's reference inequality `updatedChildren !== obj.children`
holds exactly when the recursive call set its own flag). -/
def updateQrLevel (objects : List ParsedDataObject) (currentId : String)
    (restPath : List String) (action : QrAction) (newFieldId : Option String)
    (newFieldDefinition : Option SchemaNode) : List ParsedDataObject × Bool :=
  match objects with
  | [] => ([], false)
  | obj :: rest =>
    let hd := updateQrObj obj currentId restPath action newFieldId newFieldDefinition
    let tl := updateQrLevel rest currentId restPath action newFieldId newFieldDefinition
    (match hd.1 with
     | some o => o :: tl.1
     | none => tl.1, hd.2 || tl.2)

/-- The per-element body of the map of `updateQrObjectRecursive`: delete the
target (`null`, filtered out later), add a child to the target parent
(appending, re-sorting, and recomputing the parent's value and length from
the children), or recurse into the children and, when they changed, rebuild
the record with its value and length recomputed from the new children. -/
def updateQrObj (obj : ParsedDataObject) (currentId : String) (restPath : List String)
    (action : QrAction) (newFieldId : Option String)
    (newFieldDefinition : Option SchemaNode) : Option ParsedDataObject × Bool :=
  match obj with
  | .mk objId _objLength _objValue objName objFormat objDescription objChildren =>
    if objId == currentId then
      match restPath with
      | [] =>
        match action with
        | .delete => (none, true)
        | .add =>
          match newFieldId, newFieldDefinition with
          | some nid, some ndef =>
            let newChild := createNewDataObject nid ndef
            let updatedChildren := sortByNumericId (objChildren ++ [newChild])
            let childrenData := childConcat updatedChildren
            (some (.mk objId (zeroPad2 childrenData.length) childrenData
              objName objFormat objDescription updatedChildren), true)
          | _, _ => (some obj, false)
      | c :: rp =>
        let rec2 := updateQrLevel objChildren c rp action newFieldId newFieldDefinition
        if rec2.2 then
          let updatedChildren := rec2.1
          let childrenData := childConcat updatedChildren
          (some (.mk objId (zeroPad2 childrenData.length) childrenData
            objName objFormat objDescription updatedChildren), true)
        else (some obj, false)
    else (some obj, false)

end

mutual

/-- The `updateRecursive` closure of `updateParsedObjectField` (src/App.tsx)
on one level: map each item through `updateFieldItem`, threading the
`changed` flag; the caller uses the original array when the flag is off. -/
def updateFieldLevel (items : List ParsedDataObject) (id newValue : String)
    (objectPath currentPath : List String) : List ParsedDataObject × Bool :=
  match items with
  | [] => ([], false)
  | item :: rest =>
    let hd := updateFieldItem item id newValue objectPath currentPath
    let tl := updateFieldLevel rest id newValue objectPath currentPath
    (hd.1 :: tl.1, hd.2 || tl.2)

/-- The per-item body of `updateRecursive`: the record matching the target id
whose ancestor path equals `objectPath` gets the new value and recomputed
length (only when they actually differ); any other record with a non-empty
`children` array is recursed into with the extended path, and when its
children changed its value and length are recomputed from them (unless
already equal, in which case only the children are replaced). -/
def updateFieldItem (item : ParsedDataObject) (id newValue : String)
    (objectPath currentPath : List String) : ParsedDataObject × Bool :=
  match item with
  | .mk itemId itemLength itemValue itemName itemFormat itemDescription itemChildren =>
    if itemId == id && currentPath == objectPath then
      if !(itemValue == newValue) || !(itemLength == zeroPad2 newValue.length) then
        (.mk itemId (zeroPad2 newValue.length) newValue
          itemName itemFormat itemDescription itemChildren, true)
      else (item, false)
    else if itemChildren.length > 0 then
      let newPath := currentPath ++ [itemId]
      let rec2 := updateFieldLevel itemChildren id newValue objectPath newPath
      if rec2.2 then
        let updatedChildren := rec2.1
        let childrenData := childConcat updatedChildren
        if !(itemValue == childrenData) || !(itemLength == zeroPad2 childrenData.length) then
          (.mk itemId (zeroPad2 childrenData.length) childrenData
            itemName itemFormat itemDescription updatedChildren, true)
        else
          (.mk itemId itemLength itemValue
            itemName itemFormat itemDescription updatedChildren, true)
      else (item, false)
    else (item, false)

end

/-- `updateParsedObjectField` (src/App.tsx): run the recursive update from
the root with an empty current path, then recompute the checksum record with
`updateCRCInParsedObject`. -/
def updateParsedObjectField (prev : List ParsedDataObject) (id newValue : String)
    (objectPath : List String) : List ParsedDataObject :=
  let res := updateFieldLevel prev id newValue objectPath []
  updateCRCInParsedObject (if res.2 then res.1 else prev)

mutual

/-- `reconstructQrData` (src/App.tsx): flatten a record tree back to the
payload string; each record contributes its id, the freshly computed
zero-padded length of its flattened value, and the flattened value itself
(the children's encoding for records with children, the stored value
otherwise). -/
def reconstructQrData : List ParsedDataObject → String
  | [] => ""
  | obj :: rest => reconstructOne obj ++ reconstructQrData rest

/-- One record's contribution to `reconstructQrData`. -/
def reconstructOne : ParsedDataObject → String
  | .mk i _ v _ _ _ cs =>
    let childrenData := if cs.isEmpty then v else reconstructQrData cs
    i ++ zeroPad2 childrenData.length ++ childrenData

end

end App

/-! ## Claim C10: decoding the empty string -/

/-- C10: decoding the empty string raises the "Data cannot be empty" error
rather than returning the empty record list, at every fuel. -/
theorem c10_parseQRCode_empty_raises (fuel : Nat) :
    parseQRCode "" fuel = .error .dataEmpty := rfl

/-! ## Claim C9: root-level range resolution -/

/-- C9: root-level schema lookup of id "30" (empty ancestor chain) resolves
to the node stored under the range key "26-37" — the Merchant Account
Information Template — and lookup of id "99", which lies outside all defined
exact keys and ranges, returns not-found. Both the registry's `getDefinition`
(src/constants/emvco.ts) and the parser's root-level `QRParser.getDefinition`
(src/utils/parse-qr.ts) are covered. -/
theorem c9_range_resolution :
    Emvco.getDefinition "30" none = lookupKey DATA_OBJECT_DEFINITIONS "26-37" ∧
    (Emvco.getDefinition "30" none).map SchemaNode.name =
      some "Merchant Account Information Template" ∧
    Emvco.getDefinition "99" none = none ∧
    QRParser.getDefinition "30" none none = lookupKey DATA_OBJECT_DEFINITIONS "26-37" ∧
    QRParser.getDefinition "99" none none = none :=
  ⟨by rfl, by rfl, by rfl, by rfl, by rfl⟩

/-! ## Claim C4: termination of decoding

The parse loop does not terminate on every input. On the input "00-4" the
first record read has length field "-4", which `parseInt` reads as -4: the
cursor advances by 2 (id), 2 (length) and then -4 (value), returning to
index 0, so the top-level `while` loop repeats the same iteration forever.
The fuel-indexed embedding therefore reports `outOfFuel` at every fuel. -/

/-- The record that `parseDataObject` returns forever on the input "00-4":
its value is the substring from 4 to 0, which JavaScript's `substring` swaps
into the whole string. -/
def stuckRecord : ParsedDataObject :=
  .mk "00" "-4" "00-4" (some "Payload Format Indicator") (some "N")
    (some "Indicates the data representation format") []

/-- C4 (refuting the claimed termination, supporting the code_bug verdict):
on "00-4" one full `parseDataObject` step succeeds but leaves the cursor at
0 — no net forward progress — and consequently the whole decode never
finishes: it exhausts every fuel bound instead of returning or raising. -/
theorem c4_parse_diverges :
    (∀ g : Nat, QRParser.parseDataObject "00-4" 0 none none (g + 1) = .ok (stuckRecord, 0)) ∧
    (∀ fuel : Nat, parseQRCode "00-4" fuel = .error .outOfFuel) := by
  constructor
  · intro g; rfl
  · intro fuel
    show QRParser.parseLoop "00-4" 0 fuel = .error .outOfFuel
    induction fuel with
    | zero => rfl
    | succ f ih =>
      cases f with
      | zero => rfl
      | succ g =>
        rw [QRParser.parseLoop]
        have h : QRParser.parseDataObject "00-4" 0 none none (g + 1) = .ok (stuckRecord, 0) := rfl
        rw [if_pos (by decide)]
        simp only [h, ih]

/-! ## Claim C7: setValue on a non-resolving path

The recursive update itself is a no-op on a non-resolving path, but
`updateParsedObjectField` then passes the unchanged tree through
`updateCRCInParsedObject`, which rewrites the checksum record whenever the
stored checksum does not match the recomputed one — so the function's result
is not always equal to its input. -/

namespace App

mutual

/-- Whether the matching condition of `updateRecursive`
(`item.id === id && JSON.stringify(currentPath) === JSON.stringify(objectPath)`)
is reached anywhere in the traversal of this level: a record matches here, or
some record with a non-empty children array contains a match below itself.
This is exactly the condition under which the source can set its `changed`
flag. -/
def pathResolvesLevel (items : List ParsedDataObject) (id : String)
    (objectPath currentPath : List String) : Bool :=
  match items with
  | [] => false
  | item :: rest =>
    pathResolvesItem item id objectPath currentPath ||
    pathResolvesLevel rest id objectPath currentPath

/-- One record's contribution to `pathResolvesLevel`. -/
def pathResolvesItem (item : ParsedDataObject) (id : String)
    (objectPath currentPath : List String) : Bool :=
  match item with
  | .mk itemId _ _ _ _ _ itemChildren =>
    (itemId == id && currentPath == objectPath) ||
    (itemChildren.length > 0 &&
      pathResolvesLevel itemChildren id objectPath (currentPath ++ [itemId]))

end

/-- On a non-resolving path the `changed` flag of the recursive update stays
off (strong induction on the size of the level). -/
theorem updateField_false_of_not_resolves :
    ∀ (n : Nat) (items : List ParsedDataObject) (id newValue : String)
      (objectPath currentPath : List String), sizeOf items ≤ n →
      pathResolvesLevel items id objectPath currentPath = false →
      (updateFieldLevel items id newValue objectPath currentPath).2 = false := by
  intro n
  induction n with
  | zero =>
    intro items id newValue objectPath currentPath hs _
    cases items with
    | nil => rfl
    | cons item rest =>
      exfalso; simp only [List.cons.sizeOf_spec] at hs; omega
  | succ n ih =>
    intro items id newValue objectPath currentPath hs hr
    cases items with
    | nil => rfl
    | cons item rest =>
      rw [pathResolvesLevel] at hr
      simp only [Bool.or_eq_false_iff] at hr
      obtain ⟨hitem, hrest⟩ := hr
      have hsr : sizeOf rest ≤ n := by
        simp only [List.cons.sizeOf_spec] at hs; omega
      have htl := ih rest id newValue objectPath currentPath hsr hrest
      rw [updateFieldLevel]
      show ((updateFieldItem item id newValue objectPath currentPath).2 ||
        (updateFieldLevel rest id newValue objectPath currentPath).2) = false
      rw [htl, Bool.or_false]
      cases item with
      | mk iid il iv inm ifm idsc ics =>
        rw [pathResolvesItem] at hitem
        simp only [Bool.or_eq_false_iff, Bool.and_eq_false_iff] at hitem
        obtain ⟨htgt, hch⟩ := hitem
        have hsc : sizeOf ics ≤ n := by
          simp only [List.cons.sizeOf_spec, ParsedDataObject.mk.sizeOf_spec] at hs; omega
        rw [updateFieldItem]
        rcases htgt with htgt | htgt
        · simp only [htgt, Bool.false_and, Bool.false_eq_true, if_false]
          by_cases hlen : ics.length > 0
          · rcases hch with hch | hch
            · exact absurd hlen (by simpa using hch)
            · have hrec := ih ics id newValue objectPath (currentPath ++ [iid]) hsc hch
              simp only [hlen, if_true, hrec, Bool.false_eq_true, if_false]
          · simp only [hlen, if_false]
        · simp only [htgt, Bool.and_false, Bool.false_eq_true, if_false]
          by_cases hlen : ics.length > 0
          · rcases hch with hch | hch
            · exact absurd hlen (by simpa using hch)
            · have hrec := ih ics id newValue objectPath (currentPath ++ [iid]) hsc hch
              simp only [hlen, if_true, hrec, Bool.false_eq_true, if_false]
          · simp only [hlen, if_false]

end App

/-- A tree whose stored checksum "0000" does not match the value recomputed
from its payload (the CRC of "0002016304" is 0xAAE6). -/
def staleTree : List ParsedDataObject :=
  [.mk "00" "02" "01" none none none [], .mk "63" "04" "0000" none none none []]

/-- C7 counterexample: on `staleTree` the path (id "99", ancestor path [])
resolves to no record, yet `updateParsedObjectField` does not return a tree
equal to its input — the checksum record's value changes from "0000" to the
recomputed "AAE6", because the function always finishes with
`updateCRCInParsedObject`. -/
theorem c7_counterexample :
    App.pathResolvesLevel staleTree "99" [] [] = false ∧
    (App.updateParsedObjectField staleTree "99" "x" []).map ParsedDataObject.value ≠
      staleTree.map ParsedDataObject.value :=
  ⟨by rfl, by decide⟩

/-- C7 amended: when the path resolves to no record the recursive update
leaves the tree untouched, and the operation's result is exactly
`updateCRCInParsedObject` of the input — so every record other than the
first top-level checksum record is unchanged, and the whole tree is
unchanged whenever its checksum is already consistent (or absent). -/
theorem c7_amended (prev : List ParsedDataObject) (id newValue : String)
    (objectPath : List String)
    (h : App.pathResolvesLevel prev id objectPath [] = false) :
    App.updateParsedObjectField prev id newValue objectPath = updateCRCInParsedObject prev := by
  unfold App.updateParsedObjectField
  simp only [App.updateField_false_of_not_resolves (sizeOf prev) prev id newValue objectPath []
    (Nat.le_refl _) h, Bool.false_eq_true, if_false]

/-- C7 witness: the amended theorem applied to `staleTree` with the
non-resolving path (id "99", []). -/
theorem c7_witness :
    App.pathResolvesLevel staleTree "99" [] [] = false ∧
    App.updateParsedObjectField staleTree "99" "x" [] = updateCRCInParsedObject staleTree :=
  ⟨by rfl, c7_amended staleTree "99" "x" [] (by rfl)⟩

/-! ## Claim C8: the table-driven CRC refines the bitwise CRC-16/IBM-3740 -/

/-- Reference bit-level step of CRC-16/IBM-3740 (CCITT-FALSE): shift left by
one and, when the top bit (of 16) was set, reduce by the polynomial 0x1021,
keeping 16 bits. Written from the spec's description of the variant, not from
the table. -/
def crcBitStep (c : Nat) : Nat :=
  if c &&& 0x8000 ≠ 0 then ((c <<< 1) ^^^ 0x1021) &&& 0xffff
  else (c <<< 1) &&& 0xffff

/-- `k` iterations of the reference bit step. -/
def crcBits : Nat → Nat → Nat
  | 0, c => c
  | k + 1, c => crcBits k (crcBitStep c)

/-- Reference MSB-first per-byte processing: XOR the byte into the top eight
bits and run eight bit steps. -/
def crc16ReferenceByteStep (c b : Nat) : Nat := crcBits 8 (c ^^^ (b <<< 8))

/-- Reference bitwise CRC-16/IBM-3740 of a byte sequence: initial value
0xFFFF, MSB-first per-byte processing, no final XOR. -/
def crc16Reference (bytes : List Nat) : Nat := bytes.foldl crc16ReferenceByteStep 0xffff

theorem land_ffff (x : Nat) : x &&& 0xffff = x % 2 ^ 16 := by
  have := Nat.and_pow_two_sub_one_eq_mod x 16
  norm_num at this ⊢; omega

theorem land_ff (x : Nat) : x &&& 0xff = x % 2 ^ 8 := by
  have := Nat.and_pow_two_sub_one_eq_mod x 8
  norm_num at this ⊢; omega

theorem land_8000_ne (x : Nat) : (x &&& 0x8000 ≠ 0) ↔ x.testBit 15 := by
  have h : (0x8000 : Nat) = 2 ^ 15 := by norm_num
  rw [h, Nat.and_two_pow]
  cases hb : x.testBit 15 <;> simp [hb]

theorem shiftLeft_xor_distrib (x y n : Nat) : (x ^^^ y) <<< n = (x <<< n) ^^^ (y <<< n) := by
  apply Nat.eq_of_testBit_eq
  intro i
  simp only [Nat.testBit_shiftLeft, Nat.testBit_xor]
  cases hge : decide (i ≥ n) <;> simp

theorem crcBitStep_alt (c : Nat) :
    crcBitStep c = ((c <<< 1) &&& 0xffff) ^^^ (if c.testBit 15 then 0x1021 else 0) := by
  rw [crcBitStep]
  by_cases h : c &&& 0x8000 ≠ 0
  · rw [if_pos h, if_pos ((land_8000_ne c).mp h), Nat.and_xor_distrib_right,
      (by decide : (0x1021 : Nat) &&& 0xffff = 0x1021)]
  · rw [if_neg h, if_neg (by rw [← land_8000_ne c]; exact h)]
    simp

theorem nat_xor_left_comm (a b c : Nat) : a ^^^ (b ^^^ c) = b ^^^ (a ^^^ c) := by
  rw [← Nat.xor_assoc, Nat.xor_comm a b, Nat.xor_assoc]

theorem nat_xor_cancel_left (a b : Nat) : a ^^^ (a ^^^ b) = b := by
  rw [← Nat.xor_assoc, Nat.xor_self, Nat.zero_xor]

theorem crcBitStep_linear (x y : Nat) :
    crcBitStep (x ^^^ y) = crcBitStep x ^^^ crcBitStep y := by
  rw [crcBitStep_alt, crcBitStep_alt, crcBitStep_alt,
    shiftLeft_xor_distrib, Nat.and_xor_distrib_right, Nat.testBit_xor]
  cases hx : x.testBit 15 <;> cases hy : y.testBit 15 <;>
    simp [Nat.xor_assoc, Nat.xor_comm, nat_xor_left_comm, nat_xor_cancel_left,
      Nat.xor_self, Nat.zero_xor]

theorem crcBits_linear (k x y : Nat) :
    crcBits k (x ^^^ y) = crcBits k x ^^^ crcBits k y := by
  induction k generalizing x y with
  | zero => rfl
  | succ k ih => rw [crcBits, crcBits, crcBits, crcBitStep_linear, ih]

theorem crcBits_low (k : Nat) : ∀ l : Nat, l * 2 ^ k < 2 ^ 16 → crcBits k l = l <<< k := by
  induction k with
  | zero => intro l _; simp [crcBits, Nat.shiftLeft_eq]
  | succ k ih =>
    intro l hl
    have hle : (2:Nat) ≤ 2 ^ (k+1) :=
      calc (2:Nat) = 2 ^ 1 := rfl
      _ ≤ 2 ^ (k+1) := Nat.pow_le_pow_right (by norm_num) (by omega)
    have hl2 : l * 2 ≤ l * 2 ^ (k+1) := Nat.mul_le_mul_left l hle
    have hl15 : l < 2 ^ 15 := by
      have h15 : (2:Nat) ^ 15 * 2 = 2 ^ 16 := by norm_num
      omega
    have hbit : l.testBit 15 = false := Nat.testBit_eq_false_of_lt hl15
    have hstep : crcBitStep l = l <<< 1 := by
      rw [crcBitStep_alt, hbit, if_neg (by simp), Nat.xor_zero, land_ffff, Nat.mod_eq_of_lt]
      rw [Nat.shiftLeft_eq]
      calc l * 2 ^ 1 ≤ l * 2 ^ (k + 1) :=
        Nat.mul_le_mul_left l (Nat.pow_le_pow_right (by norm_num) (by omega))
      _ < 2 ^ 16 := hl
    have harg : (l <<< 1) * 2 ^ k < 2 ^ 16 := by
      rw [Nat.shiftLeft_eq]
      have : l * 2 ^ 1 * 2 ^ k = l * 2 ^ (k + 1) := by ring
      omega
    rw [crcBits, hstep, ih (l <<< 1) harg, ← Nat.shiftLeft_add, Nat.add_comm]

theorem crcTable_spec_all :
    (List.range 256).all (fun i => crcTable.getD i 0 == crcBits 8 (i <<< 8)) = true := by decide

theorem crcTable_spec (h : Nat) (hh : h < 256) : crcTable.getD h 0 = crcBits 8 (h <<< 8) := by
  have hall := crcTable_spec_all
  rw [List.all_eq_true] at hall
  exact beq_iff_eq.mp (hall h (List.mem_range.mpr hh))

theorem crcTable_length_eq : crcTable.length = 256 := by decide

theorem crcTable_getD_lt (i : Nat) : crcTable.getD i 0 < 2 ^ 16 := by
  by_cases h : i < 256
  · have hall : (List.range 256).all (fun j => decide (crcTable.getD j 0 < 2 ^ 16)) = true := by
      decide
    rw [List.all_eq_true] at hall
    exact of_decide_eq_true (hall i (List.mem_range.mpr h))
  · rw [List.getD_eq_default]
    · norm_num
    · rw [crcTable_length_eq]; omega

theorem crc_decompose (c b : Nat) :
    c ^^^ (b <<< 8) = (((c >>> 8) ^^^ b) <<< 8) ^^^ (c &&& 0xff) := by
  have hc : c = ((c >>> 8) <<< 8) ^^^ (c &&& 0xff) := by
    apply Nat.eq_of_testBit_eq
    intro i
    rw [Nat.testBit_xor, Nat.testBit_shiftLeft, Nat.testBit_shiftRight, land_ff,
      Nat.testBit_mod_two_pow]
    by_cases hi : i < 8
    · simp [hi, Nat.not_le.mpr hi]
    · have h8 : 8 ≤ i := Nat.not_lt.mp hi
      have harg : 8 + (i - 8) = i := by omega
      simp only [ge_iff_le, h8, harg, hi]
      simp
  calc c ^^^ (b <<< 8) = (((c >>> 8) <<< 8) ^^^ (c &&& 0xff)) ^^^ (b <<< 8) := by rw [← hc]
  _ = (((c >>> 8) <<< 8) ^^^ (b <<< 8)) ^^^ (c &&& 0xff) := by
      rw [Nat.xor_assoc, Nat.xor_comm (c &&& 0xff), ← Nat.xor_assoc]
  _ = (((c >>> 8) ^^^ b) <<< 8) ^^^ (c &&& 0xff) := by rw [shiftLeft_xor_distrib]

theorem crc_byteStep_eq (c b : Nat) (hc : c < 2 ^ 16) (hb : b < 256) :
    crc16ReferenceByteStep c b = crcStep c b := by
  have hh : (c >>> 8) ^^^ b < 256 := by
    have h1 : c >>> 8 < 256 := by rw [Nat.shiftRight_eq_div_pow]; omega
    have := Nat.xor_lt_two_pow (n := 8) (by simpa using h1) (by simpa using hb)
    simpa using this
  have hlow : (c &&& 0xff) * 2 ^ 8 < 2 ^ 16 := by
    rw [land_ff]
    have := Nat.mod_lt c (y := 2 ^ 8) (by norm_num)
    have h16 : (2:Nat) ^ 8 * 2 ^ 8 = 2 ^ 16 := by norm_num
    calc (c % 2 ^ 8) * 2 ^ 8 < 2 ^ 8 * 2 ^ 8 := mul_lt_mul_of_pos_right this (by norm_num)
    _ = 2 ^ 16 := h16
  rw [crc16ReferenceByteStep, crc_decompose, crcBits_linear, crcBits_low 8 (c &&& 0xff) hlow]
  rw [crcStep]
  have hidx : ((c >>> 8) ^^^ b) &&& 0xff = (c >>> 8) ^^^ b := by
    rw [land_ff]
    exact Nat.mod_eq_of_lt (by simpa using hh)
  rw [hidx, ← crcTable_spec _ hh]
  have hmask : (c <<< 8) &&& 0xffff = (c &&& 0xff) <<< 8 := by
    rw [land_ffff, land_ff, Nat.shiftLeft_eq, Nat.shiftLeft_eq]
    have h1 : (2:Nat) ^ 16 = 2 ^ 8 * 2 ^ 8 := by norm_num
    rw [h1, Nat.mul_mod_mul_right]
  rw [hmask, Nat.xor_comm]

theorem crcStep_lt (c b : Nat) : crcStep c b < 2 ^ 16 := by
  rw [crcStep]
  apply Nat.xor_lt_two_pow
  · rw [land_ffff]; exact Nat.mod_lt _ (by norm_num)
  · exact crcTable_getD_lt _

/-- The folded CRC state stays within 16 bits, so the final value does. -/
theorem calculateCrc16_foldl_lt (bs : List Nat) :
    ∀ c : Nat, c < 2 ^ 16 → bs.foldl crcStep c < 2 ^ 16 := by
  induction bs with
  | nil => intro c hc; exact hc
  | cons b rest ih => intro c _; exact ih (crcStep c b) (crcStep_lt c b)

/-- Any `calculateCrc16IBM3740` result is below 2^16. -/
theorem calculateCrc16_lt (s : String) : calculateCrc16IBM3740 s < 2 ^ 16 := by
  rw [calculateCrc16IBM3740, calculateCrc16IBM3740Bytes, Nat.xor_zero]
  exact calculateCrc16_foldl_lt _ 0xffff (by norm_num)

/-- C8: the embedded 256-entry table agrees with the polynomial 0x1021 on
every index, and on every byte sequence the table-driven
`calculateCrc16IBM3740` equals the reference bitwise CRC-16/IBM-3740
(initial value 0xFFFF, MSB-first per-byte processing, no final XOR). -/
theorem c8_crc_refines_bitwise :
    (∀ i : Nat, i < 256 → crcTable.getD i 0 = crcBits 8 (i <<< 8)) ∧
    (∀ bytes : List Nat, (∀ b ∈ bytes, b < 256) →
      calculateCrc16IBM3740Bytes bytes = crc16Reference bytes) := by
  constructor
  · exact fun i hi => crcTable_spec i hi
  · intro bytes hb
    rw [calculateCrc16IBM3740Bytes, crc16Reference, Nat.xor_zero]
    have main : ∀ (bs : List Nat) (c : Nat), (∀ b ∈ bs, b < 256) → c < 2 ^ 16 →
        bs.foldl crcStep c = bs.foldl crc16ReferenceByteStep c := by
      intro bs
      induction bs with
      | nil => intro c _ _; rfl
      | cons b rest ih =>
        intro c hball hc
        have hb256 : b < 256 := hball b (List.mem_cons_self _ _)
        rw [List.foldl_cons, List.foldl_cons, crc_byteStep_eq c b hc hb256]
        exact ih (crcStep c b) (fun x hx => hball x (List.mem_cons_of_mem _ hx)) (crcStep_lt c b)
    exact main bytes 0xffff hb (by norm_num)

/-- C8 witness: the theorem applied at index 0x10 and at the byte sequence
[0x30, 0x31] (the UTF-8 bytes of "01"). -/
theorem c8_crc_refines_bitwise_witness :
    ((0x10 : Nat) < 256 ∧ crcTable.getD 0x10 0 = crcBits 8 ((0x10 : Nat) <<< 8)) ∧
    ((∀ b ∈ [0x30, 0x31], b < 256) ∧
      calculateCrc16IBM3740Bytes [0x30, 0x31] = crc16Reference [0x30, 0x31]) :=
  ⟨⟨by decide, c8_crc_refines_bitwise.1 0x10 (by decide)⟩,
   ⟨by decide, c8_crc_refines_bitwise.2 [0x30, 0x31] (by decide)⟩⟩

/-! ## Claims C6 and C2: recomputing and validating the checksum

Supporting lemmas: locating the first id-"63" record, a positional
characterization of `updateCRCInParsedObject`, the shape of the rendered
checksum value (exactly four uppercase hexadecimal digits), and the equality
between the string `validateCRC` checksums and the recursive serialization
`getRawDataStringForCRC`, which holds for trees whose records are
length/value coherent. -/

theorem findIdx?_append_first (p : ParsedDataObject → Bool) :
    ∀ (pre : List ParsedDataObject) (old : ParsedDataObject) (post : List ParsedDataObject)
      (i : Nat), (∀ r ∈ pre, p r = false) → p old = true →
      List.findIdx? p (pre ++ old :: post) i = some (i + pre.length) := by
  intro pre
  induction pre with
  | nil =>
    intro old post i _ hold
    simp [List.findIdx?_cons, hold]
  | cons a rest ih =>
    intro old post i hpre hold
    have ha : p a = false := hpre a (List.mem_cons_self _ _)
    rw [List.cons_append, List.findIdx?_cons, if_neg (by simp [ha])]
    rw [ih old post (i + 1) (fun r hr => hpre r (List.mem_cons_of_mem _ hr)) hold,
      List.length_cons]
    congr 1
    omega

theorem set_append_mid (x : ParsedDataObject) :
    ∀ (pre : List ParsedDataObject) (old : ParsedDataObject) (post : List ParsedDataObject),
      (pre ++ old :: post).set pre.length x = pre ++ x :: post := by
  intro pre
  induction pre with
  | nil => intro old post; rfl
  | cons a rest ih => intro old post; simp [List.set, ih]

theorem get?_append_mid :
    ∀ (pre : List ParsedDataObject) (old : ParsedDataObject) (post : List ParsedDataObject),
      (pre ++ old :: post).get? pre.length = some old := by
  intro pre
  induction pre with
  | nil => intro old post; rfl
  | cons a rest ih => intro old post; simpa using ih old post

theorem first63_decomposition :
    ∀ (T : List ParsedDataObject), (∃ r ∈ T, r.id = "63") →
      ∃ pre old post, T = pre ++ old :: post ∧ (∀ r ∈ pre, r.id ≠ "63") ∧ old.id = "63" := by
  intro T
  induction T with
  | nil => intro h; obtain ⟨r, hr, _⟩ := h; exact absurd hr (List.not_mem_nil r)
  | cons a rest ih =>
    intro h
    by_cases ha : a.id = "63"
    · exact ⟨[], a, rest, rfl, by simp, ha⟩
    · obtain ⟨r, hr, hrid⟩ := h
      rcases List.mem_cons.mp hr with rfl | hr2
      · exact absurd hrid ha
      · obtain ⟨pre, old, post, heq, hpre, hold⟩ := ih ⟨r, hr2, hrid⟩
        exact ⟨a :: pre, old, post, by rw [heq]; rfl, by
          intro x hx
          rcases List.mem_cons.mp hx with rfl | hx2
          · exact ha
          · exact hpre x hx2, hold⟩

theorem updateCRC_split (pre : List ParsedDataObject) (old : ParsedDataObject)
    (post : List ParsedDataObject) (hpre : ∀ r ∈ pre, r.id ≠ "63") (hold : old.id = "63") :
    updateCRCInParsedObject (pre ++ old :: post) =
      pre ++ ParsedDataObject.mk old.id
        (JS.jsPadStart (JS.jsToStringDec
          (JS.jsPadStart (JS.jsToUpper (JS.jsToStringHex
            (calculateCrc16IBM3740
              (getRawDataStringForCRC (pre ++ old :: post) ++ CRC_CHECKSUM ++ "04")))) 4 '0').length)
          2 '0')
        (JS.jsPadStart (JS.jsToUpper (JS.jsToStringHex
          (calculateCrc16IBM3740
            (getRawDataStringForCRC (pre ++ old :: post) ++ CRC_CHECKSUM ++ "04")))) 4 '0')
        old.name old.format old.description old.children :: post := by
  have hfind := findIdx?_append_first (fun item => item.id == CRC_CHECKSUM) pre old post 0
    (fun r hr => by simp [CRC_CHECKSUM]; exact hpre r hr) (by simp [CRC_CHECKSUM, hold])
  rw [updateCRCInParsedObject, hfind]
  simp only [Nat.zero_add]
  rw [get?_append_mid]
  simp only [set_append_mid]

/-- Uppercase hexadecimal digit test: 0-9 or A-F. -/
def isUpperHexDigit (c : Char) : Bool :=
  (48 ≤ c.toNat && c.toNat ≤ 57) || (65 ≤ c.toNat && c.toNat ≤ 70)

def lowerHexChars : List Char := ("0123456789abcdef" : String).data

theorem digitChar_mem_lowerHex (m : Nat) (h : m < 16) : Nat.digitChar m ∈ lowerHexChars := by
  interval_cases m <;> decide

theorem toDigitsCore_chars :
    ∀ (f n : Nat) (ds : List Char), (∀ c ∈ ds, c ∈ lowerHexChars) →
      ∀ c ∈ Nat.toDigitsCore 16 f n ds, c ∈ lowerHexChars := by
  intro f
  induction f with
  | zero => intro n ds hds c hc; exact hds c hc
  | succ f ih =>
    intro n ds hds c hc
    rw [Nat.toDigitsCore] at hc
    have hdig : Nat.digitChar (n % 16) ∈ lowerHexChars :=
      digitChar_mem_lowerHex _ (Nat.mod_lt _ (by norm_num))
    by_cases hz : n / 16 = 0
    · rw [if_pos hz] at hc
      rcases List.mem_cons.mp hc with rfl | hc2
      · exact hdig
      · exact hds c hc2
    · rw [if_neg hz] at hc
      refine ih (n / 16) _ ?_ c hc
      intro x hx
      rcases List.mem_cons.mp hx with rfl | hx2
      · exact hdig
      · exact hds x hx2

theorem toDigits_hex_chars (n : Nat) : ∀ c ∈ Nat.toDigits 16 n, c ∈ lowerHexChars := by
  rw [Nat.toDigits]
  exact toDigitsCore_chars (n + 1) n [] (by intro c hc; exact absurd hc (List.not_mem_nil c))

theorem upperChar_hex : ∀ c ∈ lowerHexChars, isUpperHexDigit (JS.upperChar c) = true := by
  decide

theorem toDigits_hex_length_le (n : Nat) (h : n < 2 ^ 16) : (Nat.toDigits 16 n).length ≤ 4 := by
  rw [Nat.toDigits]
  exact Nat.toDigitsCore_length 16 (by norm_num) (n + 1) n 4 (by norm_num at h ⊢; omega)
    (by norm_num)

theorem jsToUpper_length (s : String) : (JS.jsToUpper s).length = s.length := by
  rw [JS.jsToUpper]
  show (s.data.map JS.upperChar).length = s.data.length
  exact List.length_map _ _

theorem hex4_length (n : Nat) (h : n < 2 ^ 16) :
    (JS.jsPadStart (JS.jsToUpper (JS.jsToStringHex n)) 4 '0').length = 4 := by
  have hlen : (JS.jsToUpper (JS.jsToStringHex n)).length ≤ 4 := by
    rw [jsToUpper_length, JS.jsToStringHex]
    show (Nat.toDigits 16 n).length ≤ 4
    exact toDigits_hex_length_le n h
  rw [JS.jsPadStart]
  by_cases hc : 4 ≤ (JS.jsToUpper (JS.jsToStringHex n)).length
  · rw [if_pos hc]; omega
  · rw [if_neg hc]
    show (List.replicate (4 - (JS.jsToUpper (JS.jsToStringHex n)).length) '0' ++
      (JS.jsToUpper (JS.jsToStringHex n)).data).length = 4
    rw [List.length_append, List.length_replicate]
    have : (JS.jsToUpper (JS.jsToStringHex n)).data.length =
        (JS.jsToUpper (JS.jsToStringHex n)).length := rfl
    omega

theorem hex4_chars (n : Nat) :
    (JS.jsPadStart (JS.jsToUpper (JS.jsToStringHex n)) 4 '0').data.all isUpperHexDigit = true := by
  have hupper : ∀ c ∈ (JS.jsToUpper (JS.jsToStringHex n)).data, isUpperHexDigit c = true := by
    intro c hc
    rw [JS.jsToUpper, JS.jsToStringHex] at hc
    have hc2 : c ∈ (Nat.toDigits 16 n).map JS.upperChar := hc
    obtain ⟨d, hd, rfl⟩ := List.mem_map.mp hc2
    exact upperChar_hex d (toDigits_hex_chars n d hd)
  rw [JS.jsPadStart]
  by_cases hc : 4 ≤ (JS.jsToUpper (JS.jsToStringHex n)).length
  · rw [if_pos hc]
    rw [List.all_eq_true]
    exact hupper
  · rw [if_neg hc]
    show (List.replicate _ '0' ++ (JS.jsToUpper (JS.jsToStringHex n)).data).all
      isUpperHexDigit = true
    rw [List.all_append]
    refine Bool.and_eq_true_iff.mpr ⟨?_, ?_⟩
    · rw [List.all_eq_true]
      intro c hc2
      rw [List.eq_of_mem_replicate hc2]
      decide
    · rw [List.all_eq_true]; exact hupper

theorem getRaw_append (l1 l2 : List ParsedDataObject) :
    getRawDataStringForCRC (l1 ++ l2) =
      getRawDataStringForCRC l1 ++ getRawDataStringForCRC l2 := by
  induction l1 with
  | nil => simp [getRawDataStringForCRC]
  | cons a rest ih =>
    rw [List.cons_append, getRawDataStringForCRC, getRawDataStringForCRC, ih,
      String.append_assoc]

theorem find?_append_first (p : ParsedDataObject → Bool) :
    ∀ (pre : List ParsedDataObject) (old : ParsedDataObject) (post : List ParsedDataObject),
      (∀ r ∈ pre, p r = false) → p old = true →
      List.find? p (pre ++ old :: post) = some old := by
  intro pre
  induction pre with
  | nil => intro old post _ hold; simp [List.find?_cons, hold]
  | cons a rest ih =>
    intro old post hpre hold
    rw [List.cons_append, List.find?_cons_of_neg _ (by
      rw [hpre a (List.mem_cons_self _ _)]; simp)]
    exact ih old post (fun r hr => hpre r (List.mem_cons_of_mem _ hr)) hold

theorem getRawDataStringItem_eq (r : ParsedDataObject) :
    getRawDataStringItem r =
      if r.id == CRC_CHECKSUM then ""
      else if !r.children.isEmpty then r.id ++ r.length ++ getRawDataStringForCRC r.children
      else r.id ++ r.length ++ r.value := by
  cases r; rfl

theorem validate_string_eq_raw :
    ∀ (L : List ParsedDataObject),
      (∀ r ∈ L, r.id ≠ "63" → 2 ≤ r.length.length ∧
        (r.children ≠ [] → r.value = getRawDataStringForCRC r.children)) →
      joinStrings ((L.filter (fun item => !(item.id == CRC_CHECKSUM))).map
        (fun item => item.id ++ JS.jsPadStart item.length 2 '0' ++ item.value)) =
      getRawDataStringForCRC L := by
  intro L
  induction L with
  | nil => intro _; rfl
  | cons r rest ih =>
    intro h
    have hrest := fun x hx => h x (List.mem_cons_of_mem _ hx)
    rw [getRawDataStringForCRC, List.filter_cons, getRawDataStringItem_eq]
    by_cases hr : r.id = "63"
    · rw [if_neg (by simp [CRC_CHECKSUM, hr]), if_pos (by simp [CRC_CHECKSUM, hr]), ih hrest]
      exact (String.empty_append _).symm
    · obtain ⟨hlen2, hval⟩ := h r (List.mem_cons_self _ _) hr
      rw [if_pos (by simp [CRC_CHECKSUM, hr]), if_neg (by simp [CRC_CHECKSUM, hr]),
        List.map_cons, joinStrings, ih hrest]
      have hpad : JS.jsPadStart r.length 2 '0' = r.length := by
        rw [JS.jsPadStart, if_pos hlen2]
      rw [hpad]
      by_cases hcs : r.children = ([] : List ParsedDataObject)
      · rw [if_neg (by simp [hcs])]
      · rw [if_pos (by simpa using hcs), hval hcs]

theorem jsToUpper_pad_comm (s : String) (k : Nat) :
    JS.jsToUpper (JS.jsPadStart s k '0') = JS.jsPadStart (JS.jsToUpper s) k '0' := by
  rw [JS.jsPadStart, JS.jsPadStart]
  by_cases h : k ≤ s.length
  · rw [if_pos h, if_pos (by rw [jsToUpper_length]; exact h)]
  · rw [if_neg h, if_neg (by rw [jsToUpper_length]; exact h)]
    rw [JS.jsToUpper, JS.jsToUpper]
    show String.mk ((List.replicate (k - s.length) '0' ++ s.data).map JS.upperChar) =
      String.mk (List.replicate (k - (String.mk (s.data.map JS.upperChar)).length) '0' ++
        s.data.map JS.upperChar)
    rw [List.map_append, List.map_replicate]
    have h0 : JS.upperChar '0' = '0' := by decide
    have hl : (String.mk (s.data.map JS.upperChar)).length = s.length := by
      show (s.data.map JS.upperChar).length = s.data.length
      exact List.length_map _ _
    rw [h0, hl]

theorem validateCRC_ok (pre post : List ParsedDataObject) (crcRec : ParsedDataObject)
    (hpre : ∀ r ∈ pre, r.id ≠ "63") (hid : crcRec.id = "63")
    (hcohs : ∀ r ∈ pre ++ crcRec :: post, r.id ≠ "63" → 2 ≤ r.length.length ∧
      (r.children ≠ [] → r.value = getRawDataStringForCRC r.children))
    (hval : crcRec.value = JS.jsToUpper (JS.jsPadStart (JS.jsToStringHex
      (calculateCrc16IBM3740 (getRawDataStringForCRC (pre ++ crcRec :: post) ++
        crcRec.id ++ crcRec.length))) 4 '0')) :
    validateCRC (pre ++ crcRec :: post) = .ok () := by
  rw [validateCRC]
  have hne : (pre ++ crcRec :: post).isEmpty = false := by cases pre <;> rfl
  rw [hne]
  simp only [Bool.false_eq_true, if_false]
  rw [find?_append_first _ pre _ post
    (fun r hr => by simp only [beq_eq_false_iff_ne]; exact hpre r hr)
    (by simp only [beq_iff_eq]; exact hid)]
  simp only []
  rw [validate_string_eq_raw _ hcohs, ← hval]
  simp

theorem c2_amended (T : List ParsedDataObject)
    (h63 : ∃ r ∈ T, r.id = "63")
    (hcoh : ∀ r ∈ T, r.id ≠ "63" → 2 ≤ r.length.length ∧
      (r.children ≠ [] → r.value = getRawDataStringForCRC r.children)) :
    validateCRC (updateCRCInParsedObject T) = .ok () := by
  obtain ⟨pre, old, post, rfl, hpre, hold⟩ := first63_decomposition T h63
  rw [updateCRC_split pre old post hpre hold]
  have hcrc := calculateCrc16_lt
    (getRawDataStringForCRC (pre ++ old :: post) ++ CRC_CHECKSUM ++ "04")
  have hv4 := hex4_length _ hcrc
  rw [hv4]
  refine validateCRC_ok pre post _ hpre (by exact hold) ?_ ?_
  · intro r hr hne63
    rcases List.mem_append.mp hr with hr1 | hr2
    · exact hcoh r (List.mem_append_left _ hr1) hne63
    · rcases List.mem_cons.mp hr2 with rfl | hr3
      · exact absurd hold hne63
      · exact hcoh r (List.mem_append_right _ (List.mem_cons_of_mem _ hr3)) hne63
  · have hraw : getRawDataStringForCRC (pre ++ ParsedDataObject.mk old.id
        (JS.jsPadStart (JS.jsToStringDec 4) 2 '0')
        (JS.jsPadStart (JS.jsToUpper (JS.jsToStringHex (calculateCrc16IBM3740
          (getRawDataStringForCRC (pre ++ old :: post) ++ CRC_CHECKSUM ++ "04")))) 4 '0')
        old.name old.format old.description old.children :: post) =
        getRawDataStringForCRC (pre ++ old :: post) := by
      rw [getRaw_append, getRaw_append, getRawDataStringForCRC, getRawDataStringForCRC,
        getRawDataStringItem_eq, getRawDataStringItem_eq,
        if_pos (by simp only [beq_iff_eq]; exact hold),
        if_pos (by simp only [beq_iff_eq]; exact hold)]
    show JS.jsPadStart (JS.jsToUpper (JS.jsToStringHex (calculateCrc16IBM3740
        (getRawDataStringForCRC (pre ++ old :: post) ++ CRC_CHECKSUM ++ "04")))) 4 '0' =
      JS.jsToUpper (JS.jsPadStart (JS.jsToStringHex (calculateCrc16IBM3740
        (getRawDataStringForCRC (pre ++ ParsedDataObject.mk old.id
          (JS.jsPadStart (JS.jsToStringDec 4) 2 '0')
          (JS.jsPadStart (JS.jsToUpper (JS.jsToStringHex (calculateCrc16IBM3740
            (getRawDataStringForCRC (pre ++ old :: post) ++ CRC_CHECKSUM ++ "04")))) 4 '0')
          old.name old.format old.description old.children :: post) ++
        old.id ++ JS.jsPadStart (JS.jsToStringDec 4) 2 '0'))) 4 '0')
    rw [jsToUpper_pad_comm, hraw, hold]
    rfl

/-- C6: `updateCRCInParsedObject` is the identity on trees with no top-level
id-"63" record, and on a tree whose first id-"63" record is `old` it replaces
exactly that record: the new value is the CRC-16 of the checksum-excluded
serialization concatenated with "6304", rendered as exactly four uppercase
hexadecimal digits, the new length is "04" (every other field of the record,
and every other record, is unchanged). -/
theorem c6_recompute_frame (T : List ParsedDataObject) :
    ((∀ r ∈ T, r.id ≠ "63") → updateCRCInParsedObject T = T) ∧
    (∀ pre old post, T = pre ++ old :: post → (∀ r ∈ pre, r.id ≠ "63") → old.id = "63" →
      updateCRCInParsedObject T =
        pre ++ ParsedDataObject.mk old.id "04"
          (JS.jsPadStart (JS.jsToUpper (JS.jsToStringHex
            (calculateCrc16IBM3740 (getRawDataStringForCRC T ++ "6304")))) 4 '0')
          old.name old.format old.description old.children :: post ∧
      (JS.jsPadStart (JS.jsToUpper (JS.jsToStringHex
        (calculateCrc16IBM3740 (getRawDataStringForCRC T ++ "6304")))) 4 '0').length = 4 ∧
      (JS.jsPadStart (JS.jsToUpper (JS.jsToStringHex
        (calculateCrc16IBM3740 (getRawDataStringForCRC T ++ "6304")))) 4 '0').data.all
        isUpperHexDigit = true) := by
  constructor
  · intro h
    rw [updateCRCInParsedObject]
    have hnone : T.findIdx? (fun item => item.id == CRC_CHECKSUM) = none := by
      rw [List.findIdx?_eq_none_iff]
      intro x hx
      simp [CRC_CHECKSUM]
      exact h x hx
    rw [hnone]
  · intro pre old post heq hpre hold
    subst heq
    have hlen4 := hex4_length
      (calculateCrc16IBM3740 (getRawDataStringForCRC (pre ++ old :: post) ++ "6304"))
      (calculateCrc16_lt _)
    have h6304 : getRawDataStringForCRC (pre ++ old :: post) ++ CRC_CHECKSUM ++ "04" =
        getRawDataStringForCRC (pre ++ old :: post) ++ "6304" := by
      rw [String.append_assoc]; rfl
    refine ⟨?_, hlen4, hex4_chars _⟩
    rw [updateCRC_split pre old post hpre hold, h6304, hlen4]
    rfl

/-- C6 witness: the theorem applied to a tree without a checksum record
(identity) and to `staleTree`, whose first (and only) checksum record sits
after one ordinary record. -/
theorem c6_witness :
    ((∀ r ∈ [ParsedDataObject.mk "00" "02" "01" none none none []],
        ParsedDataObject.id r ≠ "63") ∧
      updateCRCInParsedObject [ParsedDataObject.mk "00" "02" "01" none none none []] =
        [ParsedDataObject.mk "00" "02" "01" none none none []]) ∧
    (staleTree = [ParsedDataObject.mk "00" "02" "01" none none none []] ++
        ParsedDataObject.mk "63" "04" "0000" none none none [] :: [] ∧
      updateCRCInParsedObject staleTree =
        [ParsedDataObject.mk "00" "02" "01" none none none []] ++
          ParsedDataObject.mk "63" "04"
            (JS.jsPadStart (JS.jsToUpper (JS.jsToStringHex
              (calculateCrc16IBM3740 (getRawDataStringForCRC staleTree ++ "6304")))) 4 '0')
            none none none [] :: []) := by
  constructor
  · exact ⟨by decide, (c6_recompute_frame _).1 (by decide)⟩
  · refine ⟨rfl, ?_⟩
    exact ((c6_recompute_frame staleTree).2
      [ParsedDataObject.mk "00" "02" "01" none none none []]
      (ParsedDataObject.mk "63" "04" "0000" none none none [])
      [] rfl (by decide) rfl).1

/-- C2 counterexample: a non-empty tree with no checksum record. Recompute
returns it unchanged, and validation then raises exactly the
checksum-missing error the claim rules out — the claim's "for every record
tree" is too strong. -/
theorem c2_counterexample :
    validateCRC (updateCRCInParsedObject [ParsedDataObject.mk "00" "02" "01" none none none []]) =
      .error .checksumNotFound := by rfl

/-- C2 witness: the amended theorem applied to `staleTree` (its checksum is
stale, but recompute rewrites it and validation then succeeds). -/
theorem c2_witness :
    ((∃ r ∈ staleTree, ParsedDataObject.id r = "63") ∧
      (∀ r ∈ staleTree, ParsedDataObject.id r ≠ "63" →
        2 ≤ r.length.length ∧
        (r.children ≠ [] → r.value = getRawDataStringForCRC r.children))) ∧
    validateCRC (updateCRCInParsedObject staleTree) = .ok () := by
  have hcoh : ∀ r ∈ staleTree, ParsedDataObject.id r ≠ "63" →
      2 ≤ r.length.length ∧
      (r.children ≠ [] → r.value = getRawDataStringForCRC r.children) := by
    intro r hr hne
    rcases List.mem_cons.mp hr with rfl | hr2
    · exact ⟨by decide, fun h => absurd rfl h⟩
    · rcases List.mem_cons.mp hr2 with rfl | hr3
      · exact absurd rfl hne
      · exact absurd hr3 (List.not_mem_nil r)
  exact ⟨⟨by decide, hcoh⟩, c2_amended staleTree (by decide) hcoh⟩

theorem jsSubstring_of_nonpos (s : String) (a b : Int) (hab : a ≤ b) (hb : b ≤ 0) :
    JS.jsSubstring s a b = "" := by
  rw [JS.jsSubstring]
  have hca : JS.clampIdx s.length a = 0 := by
    rw [JS.clampIdx]
    have : min a (s.length : Int) ≤ 0 := le_trans (min_le_left _ _) (le_trans hab hb)
    omega
  have hcb : JS.clampIdx s.length b = 0 := by
    rw [JS.clampIdx]
    have : min b (s.length : Int) ≤ 0 := le_trans (min_le_left _ _) hb
    omega
  rw [hca, hcb]
  rfl

theorem jsSubstring_length_eq (s : String) (a b : Int) (h0 : 0 ≤ a) (hab : a ≤ b)
    (hbn : b ≤ (s.length : Int)) :
    ((JS.jsSubstring s a b).length : Int) = b - a := by
  rw [JS.jsSubstring]
  have hca : JS.clampIdx s.length a = a.toNat := by
    rw [JS.clampIdx]
    have : min a (s.length : Int) = a := min_eq_left (le_trans hab hbn)
    omega
  have hcb : JS.clampIdx s.length b = b.toNat := by
    rw [JS.clampIdx]
    have : min b (s.length : Int) = b := min_eq_left hbn
    omega
  rw [hca, hcb]
  have hxy : a.toNat ≤ b.toNat := by omega
  show (((s.data.take (max a.toNat b.toNat)).drop (min a.toNat b.toNat)).length : Int) = b - a
  rw [max_eq_right hxy, min_eq_left hxy, List.length_drop, List.length_take]
  have hdl : s.data.length = s.length := rfl
  omega

theorem jsParseInt_empty : JS.jsParseInt "" = none := rfl

/-- Per-record length/value agreement: the stored length field parses under
`parseInt` semantics, and when the parsed length is non-negative the value
has exactly that many characters. -/
def lenOkHead : ParsedDataObject → Bool
  | .mk _ len v _ _ _ _ =>
    match JS.jsParseInt len with
    | none => false
    | some n => if 0 ≤ n then ((v.length : Int) == n) else true

mutual

/-- `lenOkHead` at every depth of one record. -/
def lenOkObj : ParsedDataObject → Bool
  | .mk i l v nm fm ds cs => lenOkHead (.mk i l v nm fm ds cs) && lenOkList cs

/-- `lenOkHead` at every depth of a record list. -/
def lenOkList : List ParsedDataObject → Bool
  | [] => true
  | r :: rest => lenOkObj r && lenOkList rest

end

theorem lenOkObj_setChildren (r : ParsedDataObject) (cs : List ParsedDataObject) :
    lenOkObj (r.setChildren cs) = (lenOkHead r && lenOkList cs) := by
  cases r with
  | mk i l v nm fm ds cs0 =>
    rw [ParsedDataObject.setChildren, lenOkObj]
    rfl

/-- Inversion of a successful `parseDataObject` step: the two length checks
passed, the length field parsed, the cursor advanced by 4 plus the parsed
length, the record's fields are the corresponding substrings, and the
children are empty (no recursion) or the result of parsing the value. -/
theorem parseDataObject_ok_inv (data : String) (i : Int) (p g : Option String) (f : Nat)
    (r : ParsedDataObject) (i' : Int)
    (h : QRParser.parseDataObject data i p g (f + 1) = .ok (r, i')) :
    ∃ len : Int,
      ¬((data.length : Int) < i + 2 + 2) ∧
      JS.jsParseInt (JS.jsSubstring data (i + 2) (i + 2 + 2)) = some len ∧
      ¬((data.length : Int) < i + 2 + 2 + len) ∧
      i' = i + 2 + 2 + len ∧
      r.id = JS.jsSubstring data i (i + 2) ∧
      r.length = JS.jsSubstring data (i + 2) (i + 2 + 2) ∧
      r.value = JS.jsSubstring data (i + 2 + 2) (i + 2 + 2 + len) ∧
      r.name = (QRParser.getDefinition (JS.jsSubstring data i (i + 2)) p g).map SchemaNode.name ∧
      (((((QRParser.getDefinition (JS.jsSubstring data i (i + 2)) p g).map
            SchemaNode.subFields).getD none).isSome &&
          QRParser.isStructuredField (JS.jsSubstring data i (i + 2))) = false ∧ r.children = [] ∨
        ((((QRParser.getDefinition (JS.jsSubstring data i (i + 2)) p g).map
            SchemaNode.subFields).getD none).isSome &&
          QRParser.isStructuredField (JS.jsSubstring data i (i + 2))) = true ∧
        QRParser.parseChildrenLoop (JS.jsSubstring data (i + 2 + 2) (i + 2 + 2 + len)) 0
          ((((QRParser.getDefinition (JS.jsSubstring data i (i + 2)) p g).map
            SchemaNode.subFields).getD none).getD [])
          (some (JS.jsSubstring data i (i + 2))) none f = .ok r.children) := by
  rw [QRParser.parseDataObject] at h
  simp only [] at h
  by_cases hshort : (data.length : Int) < i + 2 + 2
  · rw [if_pos hshort] at h; exact absurd h (by simp)
  · rw [if_neg hshort] at h
    rcases heq : JS.jsParseInt (JS.jsSubstring data (i + 2) (i + 2 + 2)) with _ | len
    · rw [heq] at h; exact absurd h (by simp)
    · rw [heq] at h
      simp only [] at h
      by_cases hpay : (data.length : Int) < i + 2 + 2 + len
      · rw [if_pos hpay] at h; exact absurd h (by simp)
      · rw [if_neg hpay] at h
        refine ⟨len, hshort, rfl, hpay, ?_⟩
        by_cases hsf : (((QRParser.getDefinition (JS.jsSubstring data i (i + 2)) p g).map
            SchemaNode.subFields).getD none).isSome = true
        · rw [if_pos hsf] at h
          by_cases hst : QRParser.isStructuredField (JS.jsSubstring data i (i + 2)) = true
          · rw [if_pos hst] at h
            rcases hch : QRParser.parseChildrenLoop
                (JS.jsSubstring data (i + 2 + 2) (i + 2 + 2 + len)) 0
                ((((QRParser.getDefinition (JS.jsSubstring data i (i + 2)) p g).map
                  SchemaNode.subFields).getD none).getD [])
                (some (JS.jsSubstring data i (i + 2))) none f with e | children
            · rw [hch] at h; exact absurd h (by simp)
            · rw [hch] at h
              simp only [] at h
              injection h with h1
              obtain ⟨hr, hi⟩ := (Prod.mk.injEq _ _ _ _).mp h1
              subst hi
              subst hr
              exact ⟨rfl, rfl, rfl, rfl, rfl, Or.inr ⟨by rw [hsf, hst]; rfl, rfl⟩⟩
          · rw [if_neg hst] at h
            injection h with h1
            obtain ⟨hr, hi⟩ := (Prod.mk.injEq _ _ _ _).mp h1
            subst hi
            subst hr
            exact ⟨rfl, rfl, rfl, rfl, rfl, Or.inl ⟨by simp [hsf, hst], rfl⟩⟩
        · rw [if_neg hsf] at h
          injection h with h1
          obtain ⟨hr, hi⟩ := (Prod.mk.injEq _ _ _ _).mp h1
          subst hi
          subst hr
          exact ⟨rfl, rfl, rfl, rfl, rfl, Or.inl ⟨by simp [hsf], rfl⟩⟩

/-- Inversion of a successful `parseChildrenLoop` step: either the cursor was
past the end (result empty), or one child was parsed, possibly re-parsed
through the VietQR 38/01 special case, and the loop continued. -/
theorem parseChildrenLoop_ok_inv (cd : String) (i : Int) (sd : List (String × SchemaNode))
    (p g : Option String) (f : Nat) (cs : List ParsedDataObject)
    (h : QRParser.parseChildrenLoop cd i sd p g (f + 1) = .ok cs) :
    (¬(i < (cd.length : Int)) ∧ cs = []) ∨
    (i < (cd.length : Int) ∧ ∃ child newIndex child2 rest,
      QRParser.parseDataObject cd i p g f = .ok (child, newIndex) ∧
      QRParser.parseChildrenLoop cd newIndex sd p g f = .ok rest ∧
      cs = child2 :: rest ∧
      (child2 = child ∨
        ((p == some "38" && child.id == "01") = true ∧
          ∃ sfd sfs cs2, lookupKey sd child.id = some sfd ∧
            sfd.subFields = some sfs ∧
            QRParser.parseChildrenLoop child.value 0 sfs (some child.id) p f = .ok cs2 ∧
            child2 = child.setChildren cs2))) := by
  rw [QRParser.parseChildrenLoop] at h
  by_cases hlt : i < (cd.length : Int)
  · rw [if_pos hlt] at h
    refine Or.inr ⟨hlt, ?_⟩
    rcases hchild : QRParser.parseDataObject cd i p g f with e | co
    · rw [hchild] at h; exact absurd h (by simp)
    · obtain ⟨child, newIndex⟩ := co
      rw [hchild] at h
      simp only [] at h
      by_cases hspec : (p == some "38" && child.id == "01") = true
      · rw [if_pos hspec] at h
        rcases hlk : lookupKey sd child.id with _ | sfd
        · rw [hlk] at h
          simp only [] at h
          rcases hrest : QRParser.parseChildrenLoop cd newIndex sd p g f with e | rest
          · rw [hrest] at h; exact absurd h (by simp)
          · rw [hrest] at h
            injection h with h1
            exact ⟨child, newIndex, child, rest, rfl, hrest, h1.symm, Or.inl rfl⟩
        · rw [hlk] at h
          simp only [] at h
          rcases hsfs : sfd.subFields with _ | sfs
          · rw [hsfs] at h
            simp only [] at h
            rcases hrest : QRParser.parseChildrenLoop cd newIndex sd p g f with e | rest
            · rw [hrest] at h; exact absurd h (by simp)
            · rw [hrest] at h
              injection h with h1
              exact ⟨child, newIndex, child, rest, rfl, hrest, h1.symm, Or.inl rfl⟩
          · rw [hsfs] at h
            simp only [] at h
            rcases hcs2 : QRParser.parseChildrenLoop child.value 0 sfs (some child.id) p f
              with e | cs2
            · rw [hcs2] at h; exact absurd h (by simp)
            · rw [hcs2] at h
              simp only [] at h
              rcases hrest : QRParser.parseChildrenLoop cd newIndex sd p g f with e | rest
              · rw [hrest] at h; exact absurd h (by simp)
              · rw [hrest] at h
                injection h with h1
                exact ⟨child, newIndex, child.setChildren cs2, rest, rfl, hrest, h1.symm,
                  Or.inr ⟨hspec, sfd, sfs, cs2, hlk, hsfs, hcs2, rfl⟩⟩
      · rw [if_neg hspec] at h
        simp only [] at h
        rcases hrest : QRParser.parseChildrenLoop cd newIndex sd p g f with e | rest
        · rw [hrest] at h; exact absurd h (by simp)
        · rw [hrest] at h
          injection h with h1
          exact ⟨child, newIndex, child, rest, rfl, hrest, h1.symm, Or.inl rfl⟩
  · rw [if_neg hlt] at h
    injection h with h1
    exact Or.inl ⟨hlt, h1.symm⟩

theorem lenOkHead_eq (r : ParsedDataObject) :
    lenOkHead r = (match JS.jsParseInt r.length with
      | none => false
      | some n => if 0 ≤ n then ((r.value.length : Int) == n) else true) := by
  cases r; rfl

theorem lenOkObj_eq (r : ParsedDataObject) :
    lenOkObj r = (lenOkHead r && lenOkList r.children) := by
  cases r; rfl

theorem lenOkList_cons (r : ParsedDataObject) (rest : List ParsedDataObject) :
    lenOkList (r :: rest) = (lenOkObj r && lenOkList rest) := rfl

theorem lenOkObj_head {r : ParsedDataObject} (h : lenOkObj r = true) : lenOkHead r = true := by
  rw [lenOkObj_eq] at h
  exact ((Bool.and_eq_true _ _).mp h).1

theorem parse_lenOk : ∀ f : Nat,
    (∀ (data : String) (i : Int) (p g : Option String) (r : ParsedDataObject) (i' : Int),
      QRParser.parseDataObject data i p g f = .ok (r, i') → lenOkObj r = true) ∧
    (∀ (cd : String) (i : Int) (sd : List (String × SchemaNode)) (p g : Option String)
        (cs : List ParsedDataObject),
      QRParser.parseChildrenLoop cd i sd p g f = .ok cs → lenOkList cs = true) := by
  intro f
  induction f with
  | zero =>
    constructor
    · intro data i p g r i' h
      exact absurd h (by rw [QRParser.parseDataObject]; simp)
    · intro cd i sd p g cs h
      exact absurd h (by rw [QRParser.parseChildrenLoop]; simp)
  | succ f ih =>
    constructor
    · intro data i p g r i' h
      obtain ⟨len, hshort, hlen, hpay, hi, hid, hl, hv, hnm, hch⟩ :=
        parseDataObject_ok_inv data i p g f r i' h
      have hpos : 0 < i + 2 + 2 := by
        by_contra hle
        push_neg at hle
        have hemp : JS.jsSubstring data (i + 2) (i + 2 + 2) = "" :=
          jsSubstring_of_nonpos data (i + 2) (i + 2 + 2) (by omega) hle
        rw [hemp, jsParseInt_empty] at hlen
        exact absurd hlen (by simp)
      have hhead : lenOkHead r = true := by
        rw [lenOkHead_eq, hl, hlen]
        simp only []
        by_cases h0 : (0 : Int) ≤ len
        · rw [if_pos h0, hv]
          simp only [beq_iff_eq]
          have hx := jsSubstring_length_eq data (i + 2 + 2) (i + 2 + 2 + len)
            (by omega) (by omega) (by omega)
          omega
        · rw [if_neg h0]
      rcases hch with ⟨hflag, hnil⟩ | ⟨hflag, hloop⟩
      · rw [lenOkObj_eq, hhead, hnil]
        rfl
      · have hcl := ih.2 _ _ _ _ _ _ hloop
        rw [lenOkObj_eq, hhead, hcl]
        rfl
    · intro cd i sd p g cs h
      rcases parseChildrenLoop_ok_inv cd i sd p g f cs h with
        ⟨_, hnil⟩ | ⟨hlt, child, newIndex, child2, rest, hc, hrest, hcons, hcase⟩
      · rw [hnil]; rfl
      · have hchild := ih.1 _ _ _ _ _ _ hc
        have hrest' := ih.2 _ _ _ _ _ _ hrest
        rw [hcons, lenOkList_cons, hrest']
        rcases hcase with rfl | ⟨hspec, sfd, sfs, cs2, hlk, hsfs, hcs2, rfl⟩
        · rw [hchild]
          rfl
        · have hcs2' := ih.2 _ _ _ _ _ _ hcs2
          rw [lenOkObj_setChildren, lenOkObj_head hchild, hcs2']
          rfl

theorem parseLoop_lenOk : ∀ (f : Nat) (data : String) (i : Int) (cs : List ParsedDataObject),
    QRParser.parseLoop data i f = .ok cs → lenOkList cs = true := by
  intro f
  induction f with
  | zero =>
    intro data i cs h
    exact absurd h (by rw [QRParser.parseLoop]; simp)
  | succ f ih =>
    intro data i cs h
    rw [QRParser.parseLoop] at h
    by_cases hlt : i < (data.length : Int)
    · rw [if_pos hlt] at h
      rcases hobj : QRParser.parseDataObject data i none none f with e | ro
      · rw [hobj] at h; exact absurd h (by simp)
      · obtain ⟨r, j⟩ := ro
        rw [hobj] at h
        simp only [] at h
        rcases hrest : QRParser.parseLoop data j f with e | rest
        · rw [hrest] at h; exact absurd h (by simp)
        · rw [hrest] at h
          injection h with h1
          rw [← h1, lenOkList_cons, (parse_lenOk f).1 data i none none r j hobj,
            ih data j rest hrest]
          rfl
    · rw [if_neg hlt] at h
      injection h with h1
      rw [← h1]
      rfl

theorem parseQRCode_lenOk (data : String) (fuel : Nat) (cs : List ParsedDataObject)
    (h : parseQRCode data fuel = .ok cs) : lenOkList cs = true := by
  rw [parseQRCode] at h
  by_cases he : (data == "") = true
  · rw [if_pos he] at h; exact absurd h (by simp)
  · rw [if_neg he] at h
    exact parseLoop_lenOk fuel data 0 cs h

/-- C5 counterexample: on input "5b-7xy" decoding succeeds even though the
first record's two-character length field "-7" is not a valid non-negative
decimal number (`parseInt` reads it as -7), and that record's value "5b-7"
has 4 characters, not its declared length read as a decimal integer. -/
theorem c5_counterexample :
    parseQRCode "5b-7xy" 10 =
      .ok [ParsedDataObject.mk "5b" "-7" "5b-7"
             (some "Merchant Account Information") (some "ans")
             (some "Merchant account information, can include multiple fields") [],
           ParsedDataObject.mk "" "5" "b-7xy" none none none []] ∧
    ("-7" : String).data.all JS.isDigitChar = false ∧
    JS.jsParseInt "-7" = some (-7) ∧
    (("5b-7" : String).length : Int) ≠ (-7 : Int) := by
  refine ⟨rfl, by decide, rfl, by decide⟩

/-- C5 (amended): the parser never performs a "valid non-negative decimal"
check on the length field; it accepts any two-character slice that JavaScript
`parseInt` can read (such as "1a" or "-7").  What does hold of every
successful `parseQRCode` run is the `lenOkList` invariant: every returned
record at every depth has a length field on which `parseInt` succeeds, and
whenever the parsed reading `n` is non-negative the record's value has
exactly `n` characters. -/
theorem c5_length_field_agreement (data : String) (fuel : Nat)
    (records : List ParsedDataObject)
    (h : parseQRCode data fuel = .ok records) :
    lenOkList records = true :=
  parseQRCode_lenOk data fuel records h

/-- Witness for C5: a concrete successful parse satisfying the invariant. -/
theorem c5_witness :
    lenOkList [ParsedDataObject.mk "00" "02" "ab"
      (some "Payload Format Indicator") (some "N")
      (some "Indicates the data representation format") []] = true :=
  c5_length_field_agreement "0002ab" 10 _ rfl

/-! ## Claim C1: round trip on well-formed input -/

mutual

/-- The claim's well-formedness requirement on the input, read off the decoded
tree: every record at every depth declares a two-digit decimal length, namely
the zero-padded rendering of its value's character count (which is therefore
at most 99). -/
def wfObj : ParsedDataObject → Bool
  | .mk _ l v _ _ _ cs =>
    (l == App.zeroPad2 v.length) && decide (v.length ≤ 99) && wfList cs

/-- `wfObj` over a list of records. -/
def wfList : List ParsedDataObject → Bool
  | [] => true
  | r :: rest => wfObj r && wfList rest

end

theorem wfObj_eq (r : ParsedDataObject) :
    wfObj r = ((r.length == App.zeroPad2 r.value.length) &&
      decide (r.value.length ≤ 99) && wfList r.children) := by
  cases r; rfl

theorem wfList_cons (r : ParsedDataObject) (rest : List ParsedDataObject) :
    wfList (r :: rest) = (wfObj r && wfList rest) := rfl

theorem wfObj_setChildren (r : ParsedDataObject) (cs : List ParsedDataObject) :
    wfObj (r.setChildren cs) = ((r.length == App.zeroPad2 r.value.length) &&
      decide (r.value.length ≤ 99) && wfList cs) := by
  cases r; rfl

theorem list_drop_take_append (t : List Char) (a b c : Nat) (hab : a ≤ b) (hbc : b ≤ c)
    (hc : c ≤ t.length) :
    (t.take b).drop a ++ (t.take c).drop b = (t.take c).drop a := by
  have hsplit : t.take c = (t.take c).take b ++ (t.take c).drop b :=
    (List.take_append_drop b (t.take c)).symm
  have htb : (t.take c).take b = t.take b := by
    rw [List.take_take, min_eq_left hbc]
  have hlen : b ≤ ((t.take c).take b).length := by
    rw [htb, List.length_take]
    omega
  calc (t.take b).drop a ++ (t.take c).drop b
      = ((t.take c).take b).drop a ++ (t.take c).drop b := by rw [htb]
    _ = ((t.take c).take b ++ (t.take c).drop b).drop a := by
        rw [List.drop_append_of_le_length (le_trans hab hlen)]
    _ = (t.take c).drop a := by rw [← hsplit]

theorem jsSubstring_append (s : String) (a b c : Int) (h0 : 0 ≤ a) (hab : a ≤ b)
    (hbc : b ≤ c) (hc : c ≤ (s.length : Int)) :
    JS.jsSubstring s a b ++ JS.jsSubstring s b c = JS.jsSubstring s a c := by
  rw [JS.jsSubstring, JS.jsSubstring, JS.jsSubstring]
  have hca : JS.clampIdx s.length a = a.toNat := by rw [JS.clampIdx]; omega
  have hcb : JS.clampIdx s.length b = b.toNat := by rw [JS.clampIdx]; omega
  have hcc : JS.clampIdx s.length c = c.toNat := by rw [JS.clampIdx]; omega
  rw [hca, hcb, hcc]
  have hab' : a.toNat ≤ b.toNat := Int.toNat_le_toNat hab
  have hbc' : b.toNat ≤ c.toNat := Int.toNat_le_toNat hbc
  have hcN : c.toNat ≤ s.length := by omega
  rw [max_eq_right hab', min_eq_left hab', max_eq_right hbc', min_eq_left hbc',
    max_eq_right (le_trans hab' hbc'), min_eq_left (le_trans hab' hbc')]
  show String.mk _ ++ String.mk _ = String.mk _
  have hdl : s.data.length = s.length := rfl
  rw [show String.mk ((s.data.take b.toNat).drop a.toNat) ++
      String.mk ((s.data.take c.toNat).drop b.toNat) =
      String.mk ((s.data.take b.toNat).drop a.toNat ++ (s.data.take c.toNat).drop b.toNat)
    from rfl]
  rw [list_drop_take_append s.data a.toNat b.toNat c.toNat hab' hbc' (by omega)]

theorem jsSubstring_full (s : String) : JS.jsSubstring s 0 (s.length : Int) = s := by
  rw [JS.jsSubstring]
  have hc0 : JS.clampIdx s.length 0 = 0 := by rw [JS.clampIdx]; omega
  have hcN : JS.clampIdx s.length (s.length : Int) = s.length := by rw [JS.clampIdx]; omega
  rw [hc0, hcN]
  have hdl : s.data.length = s.length := rfl
  show String.mk ((s.data.take (max 0 s.length)).drop (min 0 s.length)) = s
  rw [max_eq_right (Nat.zero_le _), min_eq_left (Nat.zero_le _), List.drop_zero, ← hdl,
    List.take_length s.data]

theorem jsSubstring_nil_of_ge (s : String) (a : Int) (h : (s.length : Int) ≤ a) :
    JS.jsSubstring s a (s.length : Int) = "" := by
  rw [JS.jsSubstring]
  have hca : JS.clampIdx s.length a = s.length := by rw [JS.clampIdx]; omega
  have hcN : JS.clampIdx s.length (s.length : Int) = s.length := by rw [JS.clampIdx]; omega
  rw [hca, hcN]
  have hdl : s.data.length = s.length := rfl
  show String.mk ((s.data.take (max s.length s.length)).drop (min s.length s.length)) = ""
  rw [max_self, min_self, ← hdl, List.take_length s.data, List.drop_length s.data]

theorem zeroPad2_parseInt_all :
    (List.range 100).all
      (fun m => JS.jsParseInt (App.zeroPad2 m) == some (m : Int)) = true := by decide

theorem zeroPad2_parseInt {m : Nat} (hm : m ≤ 99) :
    JS.jsParseInt (App.zeroPad2 m) = some (m : Int) := by
  have h := List.all_eq_true.mp zeroPad2_parseInt_all m (List.mem_range.mpr (by omega))
  exact eq_of_beq h

theorem reconstructOne_eq (r : ParsedDataObject) :
    App.reconstructOne r =
      r.id ++ App.zeroPad2 (if r.children.isEmpty then r.value
          else App.reconstructQrData r.children).length ++
        (if r.children.isEmpty then r.value else App.reconstructQrData r.children) := by
  cases r; rfl

theorem reconstruct_cons (r : ParsedDataObject) (rest : List ParsedDataObject) :
    App.reconstructQrData (r :: rest) = App.reconstructOne r ++ App.reconstructQrData rest :=
  rfl

theorem reconstructOne_of_value (r : ParsedDataObject)
    (hval : (if r.children.isEmpty then r.value else App.reconstructQrData r.children) =
      r.value) :
    App.reconstructOne r = r.id ++ App.zeroPad2 r.value.length ++ r.value := by
  rw [reconstructOne_eq, hval]

theorem reconstructOne_setChildren_value (r : ParsedDataObject)
    (cs2 : List ParsedDataObject) (hnil : r.children = [])
    (hval : App.reconstructQrData cs2 = r.value) :
    App.reconstructOne (r.setChildren cs2) = App.reconstructOne r := by
  cases r with
  | mk i l v nm fm ds cs0 =>
    have hcs0 : cs0 = [] := hnil
    subst hcs0
    have hv : App.reconstructQrData cs2 = v := hval
    cases cs2 with
    | nil => rfl
    | cons c cs =>
      rw [ParsedDataObject.setChildren]
      simp only [reconstructOne_eq, ParsedDataObject.children, ParsedDataObject.id,
        ParsedDataObject.value, List.isEmpty_cons, List.isEmpty_nil, Bool.false_eq_true,
        if_false, if_true]
      rw [hv]

theorem parse_roundtrip : ∀ f : Nat,
    (∀ (data : String) (i : Int) (p g : Option String) (r : ParsedDataObject) (i' : Int),
      QRParser.parseDataObject data i p g f = .ok (r, i') → wfObj r = true → 0 ≤ i →
      App.reconstructOne r = JS.jsSubstring data i i' ∧ i ≤ i' ∧
        i' ≤ (data.length : Int)) ∧
    (∀ (cd : String) (i : Int) (sd : List (String × SchemaNode)) (p g : Option String)
        (cs : List ParsedDataObject),
      QRParser.parseChildrenLoop cd i sd p g f = .ok cs → wfList cs = true → 0 ≤ i →
      App.reconstructQrData cs = JS.jsSubstring cd i (cd.length : Int)) := by
  intro f
  induction f with
  | zero =>
    constructor
    · intro data i p g r i' h
      exact absurd h (by rw [QRParser.parseDataObject]; simp)
    · intro cd i sd p g cs h
      exact absurd h (by rw [QRParser.parseChildrenLoop]; simp)
  | succ f ih =>
    constructor
    · intro data i p g r i' h hwf hi0
      obtain ⟨n, hshort, hlen, hpay, hieq, hid, hl, hv, hnm, hch⟩ :=
        parseDataObject_ok_inv data i p g f r i' h
      rw [wfObj_eq] at hwf
      obtain ⟨hwf1, hwfc⟩ := (Bool.and_eq_true _ _).mp hwf
      obtain ⟨hcanonb, hm99b⟩ := (Bool.and_eq_true _ _).mp hwf1
      have hcanon : r.length = App.zeroPad2 r.value.length := eq_of_beq hcanonb
      have hm99 : r.value.length ≤ 99 := of_decide_eq_true hm99b
      have hlen' : JS.jsParseInt (App.zeroPad2 r.value.length) = some n := by
        rw [← hcanon, hl]
        exact hlen
      have hn : n = (r.value.length : Int) := by
        rw [zeroPad2_parseInt hm99] at hlen'
        exact (Option.some.injEq _ _).mp hlen'.symm
      have hn0 : 0 ≤ n := by omega
      have hval : (if r.children.isEmpty then r.value
          else App.reconstructQrData r.children) = r.value := by
        cases hcs : r.children with
        | nil => rw [List.isEmpty_nil]; rfl
        | cons c cs =>
          rw [List.isEmpty_cons]
          rcases hch with ⟨hflag, hnil⟩ | ⟨hflag, hloop⟩
          · rw [hcs] at hnil
            exact absurd hnil (by simp)
          · rw [← hcs]
            have hrec := ih.2 _ _ _ _ _ _ hloop hwfc (le_refl 0)
            rw [jsSubstring_full] at hrec
            rw [hrec, ← hv]
            simp
      refine ⟨?_, by omega, by omega⟩
      rw [reconstructOne_of_value r hval, ← hcanon, hid, hl, hv, hieq]
      rw [String.append_assoc,
        jsSubstring_append data (i + 2) (i + 2 + 2) (i + 2 + 2 + n)
          (by omega) (by omega) (by omega) (by omega),
        jsSubstring_append data i (i + 2) (i + 2 + 2 + n)
          (by omega) (by omega) (by omega) (by omega)]
    · intro cd i sd p g cs h hwf hi0
      rcases parseChildrenLoop_ok_inv cd i sd p g f cs h with
        ⟨hge, hnil⟩ | ⟨hlt, child, j, child2, rest, hc, hrest, hcons, hcase⟩
      · rw [hnil, jsSubstring_nil_of_ge cd i (by omega)]
        rfl
      · subst hcons
        rw [wfList_cons] at hwf
        obtain ⟨hwf2, hwfrest⟩ := (Bool.and_eq_true _ _).mp hwf
        rcases hcase with rfl | ⟨hspec, sfd, sfs, cs2, hlk, hsfs, hcs2, hc2eq⟩
        · obtain ⟨hr1, hij, hjN⟩ := ih.1 _ _ _ _ _ _ hc hwf2 hi0
          have hrest' := ih.2 _ _ _ _ _ _ hrest hwfrest (by omega)
          rw [reconstruct_cons, hr1, hrest',
            jsSubstring_append cd i j (cd.length : Int) hi0 hij hjN (le_refl _)]
        · have hid01 : child.id = "01" := by
            obtain ⟨_, h2⟩ := (Bool.and_eq_true _ _).mp hspec
            exact eq_of_beq h2
          have hchnil : child.children = [] := by
            cases f with
            | zero =>
              exact absurd hc (by rw [QRParser.parseDataObject]; simp)
            | succ f' =>
              obtain ⟨n, _, _, _, _, hid, _, _, _, hch⟩ :=
                parseDataObject_ok_inv cd i p g f' child j hc
              rcases hch with ⟨_, hnil⟩ | ⟨hflag, _⟩
              · exact hnil
              · obtain ⟨_, hsf⟩ := (Bool.and_eq_true _ _).mp hflag
                rw [← hid, hid01] at hsf
                exact absurd hsf (by decide)
          subst hc2eq
          rw [wfObj_setChildren] at hwf2
          obtain ⟨hwf3, hwfcs2⟩ := (Bool.and_eq_true _ _).mp hwf2
          have hwfchild : wfObj child = true := by
            rw [wfObj_eq, hchnil]
            rw [show wfList [] = true from rfl, hwf3]
            rfl
          obtain ⟨hr1, hij, hjN⟩ := ih.1 _ _ _ _ _ _ hc hwfchild hi0
          have hwfcs2' : wfList cs2 = true := hwfcs2
          have hcsrec := ih.2 _ _ _ _ _ _ hcs2 hwfcs2' (le_refl 0)
          rw [jsSubstring_full] at hcsrec
          have hrest' := ih.2 _ _ _ _ _ _ hrest hwfrest (by omega)
          rw [reconstruct_cons,
            reconstructOne_setChildren_value child cs2 hchnil hcsrec, hr1, hrest',
            jsSubstring_append cd i j (cd.length : Int) hi0 hij hjN (le_refl _)]

theorem parseLoop_roundtrip : ∀ (f : Nat) (data : String) (i : Int)
    (recs : List ParsedDataObject),
    QRParser.parseLoop data i f = .ok recs → wfList recs = true → 0 ≤ i →
    App.reconstructQrData recs = JS.jsSubstring data i (data.length : Int) := by
  intro f
  induction f with
  | zero =>
    intro data i recs h
    exact absurd h (by rw [QRParser.parseLoop]; simp)
  | succ f ih =>
    intro data i recs h hwf hi0
    rw [QRParser.parseLoop] at h
    by_cases hlt : i < (data.length : Int)
    · rw [if_pos hlt] at h
      rcases hobj : QRParser.parseDataObject data i none none f with e | ro
      · rw [hobj] at h; exact absurd h (by simp)
      · obtain ⟨r, j⟩ := ro
        rw [hobj] at h
        simp only [] at h
        rcases hrest : QRParser.parseLoop data j f with e | rest
        · rw [hrest] at h; exact absurd h (by simp)
        · rw [hrest] at h
          injection h with h1
          rw [← h1] at hwf ⊢
          rw [wfList_cons] at hwf
          obtain ⟨hwfr, hwfrest⟩ := (Bool.and_eq_true _ _).mp hwf
          obtain ⟨hr1, hij, hjN⟩ := (parse_roundtrip f).1 _ _ _ _ _ _ hobj hwfr hi0
          rw [reconstruct_cons, hr1, ih data j rest hrest hwfrest (by omega),
            jsSubstring_append data i j (data.length : Int) hi0 hij hjN (le_refl _)]
    · rw [if_neg hlt] at h
      injection h with h1
      rw [← h1, jsSubstring_nil_of_ge data i (by omega)]
      rfl

theorem parseQRCode_roundtrip (s : String) (fuel : Nat) (records : List ParsedDataObject)
    (h : parseQRCode s fuel = .ok records) (hwf : wfList records = true) :
    App.reconstructQrData records = s := by
  rw [parseQRCode] at h
  by_cases he : (s == "") = true
  · rw [if_pos he] at h; exact absurd h (by simp)
  · rw [if_neg he] at h
    rw [parseLoop_roundtrip fuel s 0 records h hwf (le_refl 0), jsSubstring_full]

/-- C1: decode-then-encode round trip.  Well-formedness of the payload is
expressed on the decoded tree, where the claim's grammar is directly visible:
the parser already guarantees that records tile the input (ids are the
two-character slices, values the declared slices, structured values the exact
extent of their children), so a successful parse is well-formed exactly when
every record's stored length field is the two-digit decimal rendering of its
value's character count (`wfList`).  For every such input, flattening the
decoded tree with `reconstructQrData` returns the original string. -/
theorem c1_round_trip (s : String) (fuel : Nat) (records : List ParsedDataObject)
    (hdecode : parseQRCode s fuel = .ok records)
    (hwf : wfList records = true) :
    App.reconstructQrData records = s :=
  parseQRCode_roundtrip s fuel records hdecode hwf

/-- Witness for C1: a nested payload (template 62 with one sub-field) decodes
and re-encodes to itself. -/
theorem c1_witness :
    App.reconstructQrData
      [ParsedDataObject.mk "62" "07" "0503abc"
        (some "Additional Data Field Template") (some "S")
        (some "Additional data fields")
        [ParsedDataObject.mk "05" "03" "abc" (some "Reference Label") (some "ans")
          (some "Reference label") []]] = "62070503abc" :=
  c1_round_trip "62070503abc" 10 _ rfl (by decide)

/-! ## Claim C3: consistency of rebuilt ancestors after mutations -/

/-- The claim's per-record consistency: the length field is the zero-padded
two-digit decimal rendering of the value's character count and, when the
record has children, the value is the concatenation of id + length + value
over them in order. -/
def consistentRec (r : ParsedDataObject) : Bool :=
  (r.length == App.zeroPad2 r.value.length) &&
  (r.children.isEmpty || r.value == App.childConcat r.children)

theorem consistentRec_rebuild (i : String) (nm fm ds : Option String)
    (cs : List ParsedDataObject) :
    consistentRec (.mk i (App.zeroPad2 (App.childConcat cs).length) (App.childConcat cs)
      nm fm ds cs) = true := by
  rw [consistentRec]
  show (App.zeroPad2 (App.childConcat cs).length ==
      App.zeroPad2 (App.childConcat cs).length &&
    (cs.isEmpty || App.childConcat cs == App.childConcat cs)) = true
  simp

/-- C3 counterexample: setting the value of the "01" child of a structured
checksum record leaves its ancestor inconsistent.  The set-value recursion
rebuilds the id-63 parent consistently, but `updateParsedObjectField` then
recomputes the checksum, overwriting that ancestor's value with the 4-digit
CRC while keeping its children, so its value no longer equals its children's
concatenation "0102yy". -/
theorem c3_counterexample :
    App.updateParsedObjectField
      [ParsedDataObject.mk "63" "0B" "0105xxxxx" none none none
        [ParsedDataObject.mk "01" "05" "xxxxx" none none none []]]
      "01" "yy" ["63"] =
      [ParsedDataObject.mk "63" "04" "6007" none none none
        [ParsedDataObject.mk "01" "02" "yy" none none none []]] ∧
    consistentRec (ParsedDataObject.mk "63" "04" "6007" none none none
      [ParsedDataObject.mk "01" "02" "yy" none none none []]) = false :=
  ⟨rfl, by decide⟩

/-- C3 (amended): every ancestor record rebuilt by a mutation is consistent —
any record returned with its change flag set by the add/delete recursion
(`updateQrObj`), and any non-target record returned with its change flag set
by the set-value recursion (`updateFieldItem`), has a length field equal to
the zero-padded two-digit decimal rendering of its value's character count
and, when it has children, a value equal to the concatenation of
id + length + value over them.  The original claim fails only when an
ancestor is the top-level checksum record, whose value the final checksum
rewrite of `updateParsedObjectField` overwrites (see the counterexample). -/
theorem c3_rebuilt_ancestors_consistent :
    (∀ (obj : ParsedDataObject) (currentId : String) (restPath : List String)
        (action : App.QrAction) (nid : Option String) (ndef : Option SchemaNode)
        (o : ParsedDataObject),
      App.updateQrObj obj currentId restPath action nid ndef = (some o, true) →
      consistentRec o = true) ∧
    (∀ (item : ParsedDataObject) (id newValue : String)
        (objectPath currentPath : List String) (item' : ParsedDataObject),
      App.updateFieldItem item id newValue objectPath currentPath = (item', true) →
      (item.id == id && currentPath == objectPath) = false →
      consistentRec item' = true) := by
  constructor
  · intro obj c rp a ni nd o h
    cases obj with
    | mk objId objL objV objN objF objD objC =>
      rw [App.updateQrObj.eq_def] at h
      simp only [] at h
      by_cases hid : (objId == c) = true
      · rw [if_pos hid] at h
        cases rp with
        | nil =>
          cases a with
          | delete => exact absurd h (by simp)
          | add =>
            cases ni with
            | none => exact absurd h (by simp)
            | some nid' =>
              cases nd with
              | none => exact absurd h (by simp)
              | some ndef' =>
                simp only [] at h
                injection h with h1 h2
                injection h1 with h3
                rw [← h3]
                exact consistentRec_rebuild _ _ _ _ _
        | cons c' rp' =>
          simp only [] at h
          by_cases hch : (App.updateQrLevel objC c' rp' a ni nd).2 = true
          · rw [if_pos hch] at h
            injection h with h1 h2
            injection h1 with h3
            rw [← h3]
            exact consistentRec_rebuild _ _ _ _ _
          · rw [if_neg hch] at h
            exact absurd h (by simp)
      · rw [if_neg hid] at h
        exact absurd h (by simp)
  · intro item id nv op cp item' h hmatch
    cases item with
    | mk itemId itemL itemV itemN itemF itemD itemC =>
      rw [App.updateFieldItem] at h
      have hmatch' : (itemId == id && cp == op) = false := hmatch
      rw [if_neg (by rw [hmatch']; exact Bool.false_ne_true)] at h
      by_cases hlen : itemC.length > 0
      · rw [if_pos hlen] at h
        by_cases hch : (App.updateFieldLevel itemC id nv op (cp ++ [itemId])).2 = true
        · rw [if_pos hch] at h
          simp only [] at h
          by_cases hcond : (!(itemV ==
                App.childConcat (App.updateFieldLevel itemC id nv op (cp ++ [itemId])).1) ||
              !(itemL == App.zeroPad2
                (App.childConcat
                  (App.updateFieldLevel itemC id nv op (cp ++ [itemId])).1).length)) = true
          · rw [if_pos hcond] at h
            injection h with h1 h2
            rw [← h1]
            exact consistentRec_rebuild _ _ _ _ _
          · rw [if_neg hcond] at h
            injection h with h1 h2
            rw [← h1]
            have hcond' := Bool.eq_false_iff.mpr hcond
            rw [Bool.or_eq_false_iff] at hcond'
            obtain ⟨hv, hl⟩ := hcond'
            rw [Bool.not_eq_false'] at hv hl
            have hveq := eq_of_beq hv
            have hleq := eq_of_beq hl
            rw [consistentRec]
            show (itemL == App.zeroPad2 itemV.length &&
              ((App.updateFieldLevel itemC id nv op (cp ++ [itemId])).1.isEmpty ||
                itemV == App.childConcat
                  (App.updateFieldLevel itemC id nv op (cp ++ [itemId])).1)) = true
            rw [hveq, hleq]
            simp
        · rw [if_neg hch] at h
          exact absurd h (by simp)
      · rw [if_neg hlen] at h
        exact absurd h (by simp)

/-- Witness for C3 (amended): a concrete add rebuild and a concrete set-value
ancestor rebuild, both consistent. -/
theorem c3_witness :
    consistentRec (ParsedDataObject.mk "62" "04" "0500" none none none
      [ParsedDataObject.mk "05" "00" "" (some "Reference Label") (some "ans")
        (some "Reference label") []]) = true ∧
    consistentRec (ParsedDataObject.mk "62" "08" "0504defg" none none none
      [ParsedDataObject.mk "05" "04" "defg" none none none []]) = true :=
  ⟨c3_rebuilt_ancestors_consistent.1
      (ParsedDataObject.mk "62" "00" "" none none none []) "62" [] .add (some "05")
      (some (SchemaNode.mk "Reference Label" "ans" "Reference label" none none)) _ rfl,
    c3_rebuilt_ancestors_consistent.2
      (ParsedDataObject.mk "62" "07" "0503abc" none none none
        [ParsedDataObject.mk "05" "03" "abc" none none none []])
      "05" "defg" ["62"] [] _ rfl (by decide)⟩
